import Mathlib

/-!
# Verification of the Figma migration task engine

Shallow embedding of the dependency-aware migration engine implemented in
`packages/registry/scripts/build-registry.ts` (two near-identical variants of
the same module appear in that file; where they agree we embed the shared
code once and note divergences in comments).

The embedding models:
* the persisted data model (`ComponentState`, `PageState`, `MigrationState`,
  `MigrationStats`), with the TS `Record<string, T>` maps rendered as
  insertion-ordered lists of entries whose key is the `figmaId` field
  (the code always keys entries by their `figmaId`);
* the readiness propagator `updateDependencyReadiness`;
* the dependency graph builder `buildComponentDependencies` /
  `findInstanceDependencies`;
* the lifecycle operations `migrationInit`, `migrationNext`,
  `migrationStart`, `migrationComplete`, `migrationSkip`;
* the definition formatter `formatFigmaDefinition`.

File I/O is rendered explicitly: each operation takes the outcome of
`readMigrationState` (an `Option MigrationState`) as an argument, and an
operation that persists returns the written state in its `success` result;
an `error` result means the operation returned before `writeMigrationState`
was ever called, so the state file is untouched.  Timestamps
(`new Date().toISOString()`) are threaded as an explicit `now : String`.
-/

namespace Migration

/-! ## Data model, source-tree model and operations (the embedding),
with the concrete fixture values used by witnesses and counterexamples -/

/-- Status of a component task: `pending | in_progress | done | skipped`. -/
inductive ComponentStatus where
  | pending
  | in_progress
  | done
  | skipped
deriving DecidableEq, Repr

/-- Status of a page task: `blocked | pending | in_progress | done`. -/
inductive PageStatus where
  | blocked
  | pending
  | in_progress
  | done
deriving DecidableEq, Repr

/-- `ComponentState` from `lib/types` as used by the code. -/
structure ComponentState where
  figmaId : String
  name : String
  status : ComponentStatus
  dependencies : List String
  dependenciesReady : Bool
  instanceCount : Nat
  outputPath : Option String := none
  skipReason : Option String := none
  completedAt : Option String := none
deriving DecidableEq, Repr

/-- `PageState` from `lib/types` as used by the code. -/
structure PageState where
  figmaId : String
  frameName : String
  status : PageStatus
  componentsUsed : List String
  componentsReady : Bool
  outputPath : Option String := none
  completedAt : Option String := none
deriving DecidableEq, Repr

/-- Workflow phase: `components | pages | done`. -/
inductive MigrationPhase where
  | components
  | pages
  | done
deriving DecidableEq, Repr

/-- `MigrationStats` from `lib/types` as used by `computeStats`. -/
structure MigrationStats where
  totalComponents : Nat
  completedComponents : Nat
  skippedComponents : Nat
  totalPages : Nat
  completedPages : Nat
  phase : MigrationPhase
deriving DecidableEq, Repr

/-- `MigrationState`: the persisted aggregate root.  The TS `Record`s
`components` and `pages` are modelled as insertion-ordered entry lists;
every entry is keyed by its `figmaId` (as `createInitialState` builds them),
and `Record` keys are unique, which theorems assume as `componentKeysNodup`
where the semantics depends on it. -/
structure MigrationState where
  figmaFileKey : String
  figmaFileUrl : String
  createdAt : String
  updatedAt : String
  stats : MigrationStats
  components : List ComponentState
  pages : List PageState
deriving DecidableEq, Repr

/-- Uniqueness of the `Record` keys of `state.components`. -/
def componentKeysNodup (s : MigrationState) : Prop :=
  (s.components.map (fun c => c.figmaId)).Nodup

instance (s : MigrationState) : Decidable (componentKeysNodup s) := by
  unfold componentKeysNodup; infer_instance

/-- `state.components[id]` on the entry-list rendering of the `Record`. -/
def clookup (s : MigrationState) (id : String) : Option ComponentState :=
  s.components.find? (fun c => c.figmaId == id)

/-- `state.pages[id]` on the entry-list rendering of the `Record`. -/
def plookup (s : MigrationState) (id : String) : Option PageState :=
  s.pages.find? (fun p => p.figmaId == id)

/-- Whether a component status is terminal (`done` or `skipped`). -/
def ComponentStatus.isDoneOrSkipped : ComponentStatus → Bool
  | .done => true
  | .skipped => true
  | _ => false

/-- The set built at the top of `updateDependencyReadiness`:
ids of components whose status is `done` or `skipped`. -/
def doneOrSkippedIds (comps : List ComponentState) : List String :=
  (comps.filter (fun c => c.status == .done || c.status == .skipped)).map
    (fun c => c.figmaId)

/-- Body of the component loop of `updateDependencyReadiness` (lines
676-680): `comp.dependenciesReady = deps.length === 0 || deps.every(...)`. -/
def recomputeComponentReadiness (ds : List String) (c : ComponentState) :
    ComponentState :=
  { c with dependenciesReady :=
      c.dependencies.isEmpty || c.dependencies.all (fun dep => ds.contains dep) }

/-- Body of the page loop of `updateDependencyReadiness` (lines 682-689):
recompute `componentsReady` and promote a ready `blocked` page to
`pending`. -/
def recomputePageReadiness (ds : List String) (p : PageState) : PageState :=
  let ready := p.componentsUsed.all (fun compId => ds.contains compId)
  { p with
    componentsReady := ready
    status := if p.status == .blocked && ready then .pending else p.status }

/-- `updateDependencyReadiness` (build-registry.ts lines 669-690 and its
second-variant copy): recompute `dependenciesReady` for every component and
`componentsReady` for every page, and move a `blocked` page whose
`componentsReady` holds to `pending`. -/
def updateDependencyReadiness (s : MigrationState) : MigrationState :=
  let ds := doneOrSkippedIds s.components
  { s with
    components := s.components.map (recomputeComponentReadiness ds)
    pages := s.pages.map (recomputePageReadiness ds) }

/-- `computeStats` (lines 636-667). -/
def computeStats (s : MigrationState) : MigrationStats :=
  let components := s.components
  let pages := s.pages
  let completedComponents := (components.filter (fun c => c.status == .done)).length
  let skippedComponents := (components.filter (fun c => c.status == .skipped)).length
  let completedPages := (pages.filter (fun p => p.status == .done)).length
  let allComponentsDone := completedComponents + skippedComponents == components.length
  let allPagesDone := completedPages == pages.length
  let phase : MigrationPhase :=
    if allComponentsDone && !allPagesDone then .pages
    else if allComponentsDone && allPagesDone then .done
    else .components
  { totalComponents := components.length
    completedComponents := completedComponents
    totalPages := pages.length
    completedPages := completedPages
    skippedComponents := skippedComponents
    phase := phase }

/-- An RGBA color as read from `fill.color` / `stroke.color`
(channels in `[0,1]`, as JS numbers). -/
structure FigmaColor where
  r : Rat
  g : Rat
  b : Rat
  a : Rat
deriving DecidableEq, Repr

/-- A paint (fill or stroke) as read by the formatter. -/
structure FigmaPaint where
  type : String
  visible : Option Bool := none
  color : Option FigmaColor := none
deriving DecidableEq, Repr

/-- An effect (shadow) as read by the formatter. -/
structure FigmaEffect where
  type : String
  visible : Option Bool := none
  radius : Rat := 0
  offset : Option (Rat × Rat) := none
deriving DecidableEq, Repr

/-- `node.style` text properties as read by the formatter. -/
structure FigmaTextStyle where
  fontSize : Option Rat := none
  fontWeight : Option Rat := none
  fontFamily : Option String := none
  textAlignHorizontal : Option String := none
  lineHeightPx : Option Rat := none
deriving DecidableEq, Repr

/-- The non-recursive fields of a node, exactly those the code reads. -/
structure FigmaNodeData where
  id : String
  name : String
  type : String
  componentId : Option String := none
  layoutMode : Option String := none
  primaryAxisAlignItems : Option String := none
  counterAxisAlignItems : Option String := none
  itemSpacing : Option Rat := none
  layoutWrap : Option String := none
  paddingTop : Option Rat := none
  paddingRight : Option Rat := none
  paddingBottom : Option Rat := none
  paddingLeft : Option Rat := none
  absoluteBoundingBox : Option (Rat × Rat) := none
  cornerRadius : Option Rat := none
  rectangleCornerRadii : Option (List Rat) := none
  fills : Option (List FigmaPaint) := none
  strokes : Option (List FigmaPaint) := none
  strokeWeight : Option Rat := none
  effects : Option (List FigmaEffect) := none
  characters : Option String := none
  style : Option FigmaTextStyle := none
  opacity : Option Rat := none
deriving DecidableEq, Repr

/-- A source-tree node: its scalar data plus an optional children array whose
elements may themselves be null (the code guards both cases). -/
inductive FigmaNode where
  | node (data : FigmaNodeData) (children : Option (List (Option FigmaNode)))

/-- Scalar data of a node. -/
def FigmaNode.data : FigmaNode → FigmaNodeData
  | .node d _ => d

/-- Children array of a node. -/
def FigmaNode.children : FigmaNode → Option (List (Option FigmaNode))
  | .node _ c => c

/-- JS truthiness of an optional string (`undefined` and `""` are falsy). -/
def strTruthy : Option String → Bool
  | some s => s ≠ ""
  | none => false

/-- JS truthiness of an optional number (`undefined` and `0` are falsy). -/
def numTruthy : Option Rat → Bool
  | some x => x ≠ 0
  | none => false

/-- `Set.add` on the insertion-ordered list rendering of a JS `Set`
(`Array.from` of a JS `Set` yields elements in insertion order). -/
def setAdd (deps : List String) (x : String) : List String :=
  if deps.contains x then deps else deps ++ [x]

/-- `findInstanceDependencies` (lines 710-728 and its second-variant copy):
walk a node array, adding the `componentId` of every `INSTANCE` node that is
truthy and differs from `selfId`, recursing into children. -/
def findInstanceDependencies :
    List (Option FigmaNode) → List String → String → List String
  | [], deps, _ => deps
  | none :: rest, deps, selfId => findInstanceDependencies rest deps selfId
  | some (.node d c) :: rest, deps, selfId =>
    let deps1 :=
      if d.type == "INSTANCE" && strTruthy d.componentId &&
          d.componentId.getD "" != selfId then
        setAdd deps (d.componentId.getD "")
      else deps
    let deps2 :=
      match c with
      | some cs => findInstanceDependencies cs deps1 selfId
      | none => deps1
    findInstanceDependencies rest deps2 selfId
termination_by nodes _ _ => sizeOf nodes
decreasing_by
  all_goals simp_wf
  all_goals omega

/-- One entry of the component index (`data.components[id]`), shape per the
code's reads and spec §6: `{name, instanceCount, definition}`. -/
structure ComponentIndexEntry where
  name : String
  instanceCount : Nat
  definition : Option FigmaNode

/-- One entry of the frame index (`data.frames[id]`), shape per the code's
reads and spec §6: `{name, componentsUsed[]}`. -/
structure FrameIndexEntry where
  name : String
  componentsUsed : List String

/-- `ExtractedData`: the source snapshot.  `pages` and `sections` are never
read by the embedded operations; their element type is reduced to `String`.
The `components` and `frames` `Record`s are entry lists keyed by id. -/
structure ExtractedData where
  pages : List String
  sections : List (String × String)
  components : List (String × ComponentIndexEntry)
  frames : List (String × FrameIndexEntry)

/-- `buildComponentDependencies` (lines 692-708): per component id, the
dependency list extracted from its definition subtree.  The resulting JS
`Map` is rendered as the entry list in component-index order. -/
def buildComponentDependencies (data : ExtractedData) :
    List (String × List String) :=
  data.components.map (fun entry =>
    let compId := entry.1
    let compDeps : List String :=
      match entry.2.definition with
      | some defn =>
        match defn.children with
        | some cs => findInstanceDependencies cs [] compId
        | none => []
      | none => []
    (compId, compDeps))

/-- Modelled from the spec: `getComponent` comes from `lib/parser`, which is
not among the sources; per spec §6 the component index maps ids to
entries of name, instance count and definition, so `getComponent(data, id)`
is the index lookup. -/
def getComponent (data : ExtractedData) (id : String) :
    Option ComponentIndexEntry :=
  (data.components.find? (fun e => e.1 == id)).map (fun e => e.2)

/-- `"  ".repeat(depth)`-style string repetition. -/
def strRepeat (s : String) : Nat → String
  | 0 => ""
  | n + 1 => s ++ strRepeat s n

/-- `lines.join("\n")` as the code performs it. -/
def joinLines : List String → String
  | [] => ""
  | [l] => l
  | l :: rest => l ++ "\n" ++ joinLines rest

/-- JS `Math.round`: round half toward positive infinity, which is exactly
Mathlib's `round` (`round x = ⌊x + 1/2⌋`). -/
def jsRound (q : Rat) : Int :=
  round q

/-- JS number-to-string for the template literals of the formatter.  JS
prints integral doubles with no fractional part; the claims verified here
never evaluate the formatter on non-integral numbers, so the rendering of a
non-integral `Rat` (here `num/den`) is immaterial. -/
def numToString (q : Rat) : String :=
  if q.den = 1 then toString q.num else toString q.num ++ "/" ++ toString q.den

/-- `n.toString(16)` for the (integer) result of `Math.round`. -/
def intToHex (i : Int) : String :=
  if i < 0 then "-" ++ String.mk (Nat.toDigits 16 i.natAbs)
  else String.mk (Nat.toDigits 16 i.toNat)

/-- `.padStart(2, "0")`. -/
def padStart2 (s : String) : String :=
  if s.length < 2 then String.mk (List.replicate (2 - s.length) '0') ++ s
  else s

/-- One color channel of the hex rendering:
`Math.round(ch * 255).toString(16).padStart(2, "0")`. -/
def hexByte (ch : Rat) : String :=
  padStart2 (intToHex (jsRound (ch * 255)))

/-- The header lines of `formatFigmaDefinition` (lines 734-866): everything
the code pushes onto `lines` before the children section.  None of these
reads the `children` field. -/
def formatLines (d : FigmaNodeData) (depth : Nat) : List String :=
  let indent := strRepeat "  " depth
  let lines := [indent ++ "[" ++ d.type ++ "] \"" ++ d.name ++ "\" (id: " ++ d.id ++ ")"]
  let lines := lines ++
    (if strTruthy d.layoutMode then
      let layoutProps := ["layout: " ++ d.layoutMode.getD ""]
      let layoutProps := layoutProps ++
        (if strTruthy d.primaryAxisAlignItems then
          ["justify: " ++ d.primaryAxisAlignItems.getD ""] else [])
      let layoutProps := layoutProps ++
        (if strTruthy d.counterAxisAlignItems then
          ["align: " ++ d.counterAxisAlignItems.getD ""] else [])
      let layoutProps := layoutProps ++
        (if numTruthy d.itemSpacing then
          ["gap: " ++ numToString (d.itemSpacing.getD 0) ++ "px"] else [])
      let layoutProps := layoutProps ++
        (if strTruthy d.layoutWrap then
          ["wrap: " ++ d.layoutWrap.getD ""] else [])
      [indent ++ "  " ++ String.intercalate ", " layoutProps]
    else [])
  let lines := lines ++
    (if numTruthy d.paddingTop || numTruthy d.paddingRight ||
        numTruthy d.paddingBottom || numTruthy d.paddingLeft then
      [indent ++ "  padding: " ++ numToString (d.paddingTop.getD 0) ++ "/" ++
        numToString (d.paddingRight.getD 0) ++ "/" ++
        numToString (d.paddingBottom.getD 0) ++ "/" ++
        numToString (d.paddingLeft.getD 0)]
    else [])
  let lines := lines ++
    (match d.absoluteBoundingBox with
     | some wh =>
       [indent ++ "  size: " ++ toString (jsRound wh.1) ++ "x" ++ toString (jsRound wh.2)]
     | none => [])
  let lines := lines ++
    (if numTruthy d.cornerRadius then
      [indent ++ "  borderRadius: " ++ numToString (d.cornerRadius.getD 0) ++ "px"]
    else match d.rectangleCornerRadii with
     | some radii =>
       [indent ++ "  borderRadius: " ++ String.intercalate "/" (radii.map numToString)]
     | none => [])
  let lines := lines ++
    (match d.fills with
     | some fills =>
       if fills.length > 0 then
         let visibleFills := fills.filter (fun f => f.visible != some false)
         visibleFills.flatMap (fun fill =>
           if fill.type == "SOLID" && fill.color.isSome then
             match fill.color with
             | some col =>
               [indent ++ "  fill: #" ++ hexByte col.r ++ hexByte col.g ++ hexByte col.b ++
                 (if col.a < 1 then " (" ++ toString (jsRound (col.a * 100)) ++ "%)" else "")]
             | none => []
           else if fill.type.startsWith "GRADIENT_" then
             [indent ++ "  fill: " ++ fill.type]
           else [])
       else []
     | none => [])
  let lines := lines ++
    (match d.strokes with
     | some strokes =>
       if strokes.length > 0 && numTruthy d.strokeWeight then
         match strokes.head? with
         | some stroke =>
           match stroke.color with
           | some col =>
             [indent ++ "  border: " ++ numToString (d.strokeWeight.getD 0) ++ "px #" ++
               hexByte col.r ++ hexByte col.g ++ hexByte col.b]
           | none => []
         | none => []
       else []
     | none => [])
  let lines := lines ++
    (match d.effects with
     | some effects =>
       if effects.length > 0 then
         let visibleEffects := effects.filter (fun e => e.visible != some false)
         visibleEffects.flatMap (fun effect =>
           if effect.type == "DROP_SHADOW" || effect.type == "INNER_SHADOW" then
             [indent ++ "  shadow: " ++ effect.type ++ " radius=" ++ numToString effect.radius ++
               (match effect.offset with
                | some off => " offset=" ++ numToString off.1 ++ "/" ++ numToString off.2
                | none => "")]
           else [])
       else []
     | none => [])
  let lines := lines ++
    (if d.type == "TEXT" then
      (match d.characters with
       | some chars =>
         if chars ≠ "" then
           let preview := if chars.length > 50 then chars.take 50 ++ "..." else chars
           [indent ++ "  text: \"" ++ preview ++ "\""]
         else []
       | none => []) ++
      (match d.style with
       | some st =>
         let textProps : List String :=
           (if numTruthy st.fontSize then
             ["size: " ++ numToString (st.fontSize.getD 0) ++ "px"] else []) ++
           (if numTruthy st.fontWeight then
             ["weight: " ++ numToString (st.fontWeight.getD 0)] else []) ++
           (if strTruthy st.fontFamily then
             ["font: " ++ st.fontFamily.getD ""] else []) ++
           (if strTruthy st.textAlignHorizontal then
             ["align: " ++ st.textAlignHorizontal.getD ""] else []) ++
           (if numTruthy st.lineHeightPx then
             ["lineHeight: " ++ numToString (st.lineHeightPx.getD 0) ++ "px"] else [])
         if textProps.length > 0 then
           [indent ++ "  " ++ String.intercalate ", " textProps]
         else []
       | none => [])
    else [])
  let lines := lines ++
    (if d.type == "INSTANCE" && strTruthy d.componentId then
      [indent ++ "  → componentId: " ++ d.componentId.getD ""]
    else [])
  let lines := lines ++
    (match d.opacity with
     | some op => if op < 1 then [indent ++ "  opacity: " ++ toString (jsRound (op * 100)) ++ "%"] else []
     | none => [])
  lines

/-- `formatFigmaDefinition` (lines 734-883): `null` formats to `"null"`; a
node formats to its header lines followed by the children section, children
recursively formatted at `depth + 2` while `depth < 4`, and summarized as a
count once `depth ≥ 4`; the line array is joined with newlines. -/
def formatFigmaDefinition : Option FigmaNode → Nat → String
  | none, _ => "null"
  | some (.node d children), depth =>
    let indent := strRepeat "  " depth
    let lines := formatLines d depth
    let lines := lines ++
      (match children with
       | some cs =>
         if cs.length > 0 then
           if depth < 4 then
             (indent ++ "  children (" ++ toString cs.length ++ "):") ::
               cs.attach.map (fun c => formatFigmaDefinition c.1 (depth + 2))
           else
             [indent ++ "  children: " ++ toString cs.length ++ " nodes (truncated)"]
         else []
       | none => [])
    joinLines lines
termination_by n _ => sizeOf n
decreasing_by
  simp_wf
  have h := List.sizeOf_lt_of_mem c.2
  omega

/-- The error taxonomy.  The code reports errors as message strings; each
constructor carries exactly the data interpolated into its message. -/
inductive MigErr where
  | notInitialized
  | noSourceData
  | alreadyInitialized (existingFileKey : String)
  | itemNotFound (id : String)
  | alreadyProcessedComponent (name : String) (status : ComponentStatus)
  | dependenciesNotReady (name : String) (dependencies : List String)
  | alreadyProcessedPage (frameName : String)
  | componentsNotReady (frameName : String)
  | invalidOperation
deriving DecidableEq, Repr

/-- Outcome of a mutating operation: either it yields an error before
`writeMigrationState` is ever called (the state file is untouched), or it
persists `written` and yields the success payload. -/
inductive OpOutcome (α : Type) where
  | error (e : MigErr)
  | success (written : MigrationState) (payload : α)
deriving DecidableEq

/-- The success payload of an outcome, if any. -/
def OpOutcome.payload? {α : Type} : OpOutcome α → Option α
  | .error _ => none
  | .success _ p => some p

/-- `writeMigrationState` (lines 626-634): stamps `updatedAt` and serializes
the whole state; the function value is the persisted state. -/
def writeMigrationState (s : MigrationState) (now : String) : MigrationState :=
  { s with updatedAt := now }

/-- `createInitialState` (lines 885-937). -/
def createInitialState (data : ExtractedData) (fileKey fileUrl now : String) :
    MigrationState :=
  let componentDeps := buildComponentDependencies data
  let components : List ComponentState := data.components.map (fun entry =>
    let deps := ((componentDeps.find? (fun e => e.1 == entry.1)).map (fun e => e.2)).getD []
    { figmaId := entry.1
      name := entry.2.name
      status := .pending
      dependencies := deps
      dependenciesReady := deps.length == 0
      instanceCount := entry.2.instanceCount })
  let pages : List PageState := data.frames.map (fun entry =>
    { figmaId := entry.1
      frameName := entry.2.name
      status := .blocked
      componentsUsed := entry.2.componentsUsed
      componentsReady := false })
  let state : MigrationState :=
    { figmaFileKey := fileKey
      figmaFileUrl := fileUrl
      createdAt := now
      updatedAt := now
      stats :=
        { totalComponents := components.length
          completedComponents := 0
          skippedComponents := 0
          totalPages := pages.length
          completedPages := 0
          phase := .components }
      components := components
      pages := pages }
  let state := updateDependencyReadiness state
  { state with stats := computeStats state }

/-- Success summary of `migrationInit`. -/
structure InitSummary where
  totalComponents : Nat
  totalPages : Nat
  readyComponents : Nat
  topReadyComponents : List String
deriving DecidableEq, Repr

/-- Stable insertion for the JS comparator
`(a, b) => b.instanceCount - a.instanceCount`: the incoming element (which
originally precedes everything in the already-sorted tail) goes before every
element whose `instanceCount` is not larger. -/
def insertByInstanceCountDesc (x : ComponentState) :
    List ComponentState → List ComponentState
  | [] => [x]
  | y :: ys =>
    if y.instanceCount ≤ x.instanceCount then x :: y :: ys
    else y :: insertByInstanceCountDesc x ys

/-- `.sort((a, b) => b.instanceCount - a.instanceCount)`.
`Array.prototype.sort` is stable (ES2019), and a stable sort by a total
comparator is uniquely determined by its output being sorted with ties in
original order, so stable insertion sort models it exactly. -/
def sortByInstanceCountDesc : List ComponentState → List ComponentState
  | [] => []
  | x :: xs => insertByInstanceCountDesc x (sortByInstanceCountDesc xs)

/-- `migrationInit` (lines 1007-1053; the second variant, lines 2043-2089,
differs only in reading the source snapshot from the in-memory cache alone
instead of memory-then-disk — both are rendered by the `data` argument, the
snapshot the source-retrieval collaborator could provide).  Note the code
checks `data` before looking for an existing state, and always passes the
literal `"unknown"` as the file key. -/
def migrationInit (data : Option ExtractedData) (existing : Option MigrationState)
    (fileUrl : Option String) (now : String) : OpOutcome InitSummary :=
  match data with
  | none => .error .noSourceData
  | some figma =>
    match existing with
    | some st => .error (.alreadyInitialized st.figmaFileKey)
    | none =>
      let state := createInitialState figma "unknown" (fileUrl.getD "") now
      let written := writeMigrationState state now
      let readyComponents := sortByInstanceCountDesc
        (state.components.filter (fun c => c.status == .pending && c.dependenciesReady))
      .success written
        { totalComponents := state.stats.totalComponents
          totalPages := state.stats.totalPages
          readyComponents := readyComponents.length
          topReadyComponents := (readyComponents.take 5).map (fun c => c.name) }

/-- The `type` filter of `migrationNext`. -/
inductive NextTypeFilter where
  | component
  | page
  | any
deriving DecidableEq, Repr

/-- Item type tag of a `migrationNext` item. -/
inductive ItemType where
  | component
  | page
deriving DecidableEq, Repr

/-- One item of the `migrationNext` success payload. -/
structure NextItem where
  itemType : ItemType
  id : String
  name : String
  instanceCount : Option Nat := none
  dependencies : Option (List String) := none
  componentsUsed : Option (List String) := none
deriving DecidableEq, Repr

/-- Success payload of `migrationNext`. -/
structure NextSuccess where
  phase : MigrationPhase
  items : List NextItem
  remaining : Nat
deriving DecidableEq, Repr

/-- The component-to-item record pushed by `migrationNext` (lines
1306-1314). -/
def componentNextItem (comp : ComponentState) : NextItem :=
  { itemType := .component
    id := comp.figmaId
    name := comp.name
    instanceCount := some comp.instanceCount
    dependencies := some comp.dependencies }

/-- The page-to-item record pushed by `migrationNext` (lines 1322-1328). -/
def pageNextItem (page : PageState) : NextItem :=
  { itemType := .page
    id := page.figmaId
    name := page.frameName
    componentsUsed := some page.componentsUsed }

/-- `migrationNext` (lines 1282-1342): ready components (when the filter
allows components), sorted by descending `instanceCount`, then ready pages
(when the filter is `page`, or it is `any` and the phase is `pages`),
truncated to `limit` with `remaining = max 0 (itemCount - limit)`.
Read-only: no write occurs. -/
def migrationNext (st : Option MigrationState) (limit : Nat)
    (ty : NextTypeFilter) : Except MigErr NextSuccess :=
  match st with
  | none => .error .notInitialized
  | some state =>
    let items : List NextItem :=
      (if ty == .any || ty == .component then
        let readyComponents := sortByInstanceCountDesc
          (state.components.filter (fun c => c.status == .pending && c.dependenciesReady))
        readyComponents.map componentNextItem
      else []) ++
      (if (ty == .any && state.stats.phase == .pages) || ty == .page then
        (state.pages.filter (fun p => p.status == .pending && p.componentsReady)).map
          pageNextItem
      else [])
    .ok
      { phase := state.stats.phase
        items := items.take limit
        remaining := items.length - limit }

/-- `name.replace(/[^a-zA-Z0-9]/g, "")`. -/
def sanitizeComponentName (s : String) : String :=
  String.mk (s.data.filter (fun ch => ch.isAlphanum))

/-- Whether a character survives the page-slug replacement
(`[^a-z0-9]+` is replaced). -/
def slugKeep (c : Char) : Bool :=
  (decide ('a' ≤ c) && decide (c ≤ 'z')) || (decide ('0' ≤ c) && decide (c ≤ '9'))

/-- `.replace(/[^a-z0-9]+/g, "-")`: each maximal run of excluded characters
becomes a single dash. -/
def collapseNonAlnum : List Char → List Char
  | [] => []
  | c :: rest =>
    if slugKeep c then c :: collapseNonAlnum rest
    else '-' :: collapseNonAlnum (rest.dropWhile (fun ch => !slugKeep ch))
termination_by l => l.length
decreasing_by
  all_goals simp_wf
  all_goals
    have h : (rest.dropWhile (fun ch => !slugKeep ch)).length ≤ rest.length :=
      (List.dropWhile_sublist _).length_le
    omega

/-- The page-path slug:
`.toLowerCase().replace(/[^a-z0-9]+/g, "-").replace(/^-|-$/g, "")`
(the last regex removes one leading and one trailing dash). -/
def slugify (s : String) : String :=
  let low := s.toLower
  let collapsed := collapseNonAlnum low.data
  let collapsed :=
    match collapsed with
    | '-' :: rest => rest
    | other => other
  let collapsed :=
    if collapsed.getLast? == some '-' then collapsed.dropLast else collapsed
  String.mk collapsed

/-- Success payload of `migrationStart`: the component branch returns the
formatted-definition source node, suggested path and dependency list; the
page branch returns the frame-index entry and suggested path. -/
inductive StartPayload where
  | component (id name : String) (definition : Option FigmaNode)
      (suggestedPath : String) (dependencies : List String)
  | page (id name : String) (frame : Option FrameIndexEntry)
      (suggestedPath : String)

/-- The in-place mutation `component.status = "in_progress"` of
`migrationStart`, as a per-entry function on the components `Record`. -/
def startComponentUpdate (id : String) (c : ComponentState) : ComponentState :=
  if c.figmaId == id then { c with status := .in_progress } else c

/-- The in-place mutation `page.status = "in_progress"` of `migrationStart`. -/
def startPageUpdate (id : String) (p : PageState) : PageState :=
  if p.figmaId == id then { p with status := .in_progress } else p

/-- `migrationStart` (lines 1413-1527). -/
def migrationStart (st : Option MigrationState) (data : Option ExtractedData)
    (id now : String) : OpOutcome StartPayload :=
  match st with
  | none => .error .notInitialized
  | some state =>
    match data with
    | none => .error .noSourceData
    | some figma =>
      match state.components.find? (fun c => c.figmaId == id) with
      | some component =>
        if component.status == .done || component.status == .skipped then
          .error (.alreadyProcessedComponent component.name component.status)
        else if !component.dependenciesReady then
          .error (.dependenciesNotReady component.name component.dependencies)
        else
          let state1 := { state with
            components := state.components.map (startComponentUpdate id) }
          let written := writeMigrationState state1 now
          let compData := getComponent figma id
          let safeName := sanitizeComponentName component.name
          .success written (.component id component.name
            (compData.bind (fun cd => cd.definition))
            ("src/components/" ++ safeName ++ ".tsx")
            component.dependencies)
      | none =>
        match state.pages.find? (fun p => p.figmaId == id) with
        | some page =>
          if page.status == .done then
            .error (.alreadyProcessedPage page.frameName)
          else if !page.componentsReady then
            .error (.componentsNotReady page.frameName)
          else
            let state1 := { state with
              pages := state.pages.map (startPageUpdate id) }
            let written := writeMigrationState state1 now
            let frame := figma.frames.find? (fun e => e.1 == id)
            let safeName := slugify page.frameName
            .success written (.page id page.frameName (frame.map (fun e => e.2))
              ("src/app/" ++ safeName ++ "/page.tsx"))
        | none => .error (.itemNotFound id)

/-- `progress` counts of a `migrationComplete` success. -/
structure CompleteProgress where
  done : Nat
  total : Nat
deriving DecidableEq, Repr

/-- Success payload of `migrationComplete`. -/
structure CompleteSuccess where
  completed : String
  newReady : List String
  progress : CompleteProgress
deriving DecidableEq, Repr

/-- The in-place mutation of the completed component in
`migrationComplete`: status `done`, `outputPath`, `completedAt`. -/
def completeComponentUpdate (id outputPath now : String) (c : ComponentState) :
    ComponentState :=
  if c.figmaId == id then
    { c with status := .done, outputPath := some outputPath, completedAt := some now }
  else c

/-- The in-place mutation of the completed page in `migrationComplete`. -/
def completePageUpdate (id outputPath now : String) (p : PageState) : PageState :=
  if p.figmaId == id then
    { p with status := .done, outputPath := some outputPath, completedAt := some now }
  else p

/-- The in-place mutation of the skipped component in `migrationSkip`:
status `skipped`, `skipReason`, `completedAt`. -/
def skipComponentUpdate (id reason now : String) (c : ComponentState) :
    ComponentState :=
  if c.figmaId == id then
    { c with status := .skipped, skipReason := some reason, completedAt := some now }
  else c

/-- `migrationComplete` (lines 1587-1667).  Note the component branch sets
the status to `done` without inspecting the current status, and the page
branch does not run the propagator. -/
def migrationComplete (st : Option MigrationState) (id outputPath now : String) :
    OpOutcome CompleteSuccess :=
  match st with
  | none => .error .notInitialized
  | some state =>
    match state.components.find? (fun c => c.figmaId == id) with
    | some component =>
      let wasNotReady := (state.components.filter
        (fun c => c.status == .pending && !c.dependenciesReady)).map (fun c => c.figmaId)
      let state1 := { state with
        components := state.components.map (completeComponentUpdate id outputPath now) }
      let state2 := updateDependencyReadiness state1
      let state3 := { state2 with stats := computeStats state2 }
      let written := writeMigrationState state3 now
      let newlyReady := (written.components.filter (fun c =>
        c.status == .pending && c.dependenciesReady &&
          wasNotReady.contains c.figmaId)).map (fun c => c.name)
      .success written
        { completed := component.name
          newReady := newlyReady
          progress :=
            { done := written.stats.completedComponents
              total := written.stats.totalComponents } }
    | none =>
      match state.pages.find? (fun p => p.figmaId == id) with
      | some page =>
        let state1 := { state with
          pages := state.pages.map (completePageUpdate id outputPath now) }
        let state2 := { state1 with stats := computeStats state1 }
        let written := writeMigrationState state2 now
        .success written
          { completed := page.frameName
            newReady := []
            progress :=
              { done := written.stats.completedPages
                total := written.stats.totalPages } }
      | none => .error (.itemNotFound id)

/-- Success payload of `migrationSkip`. -/
structure SkipSuccess where
  skipped : String
  reason : String
  newReady : List String
deriving DecidableEq, Repr

/-- `migrationSkip` (lines 1722-1788).  Mirrors the component branch of
`migrationComplete` (status `skipped`, `skipReason` instead of
`outputPath`); a page id is rejected, skipping never applies to pages. -/
def migrationSkip (st : Option MigrationState) (id reason now : String) :
    OpOutcome SkipSuccess :=
  match st with
  | none => .error .notInitialized
  | some state =>
    match state.components.find? (fun c => c.figmaId == id) with
    | some component =>
      let wasNotReady := (state.components.filter
        (fun c => c.status == .pending && !c.dependenciesReady)).map (fun c => c.figmaId)
      let state1 := { state with
        components := state.components.map (skipComponentUpdate id reason now) }
      let state2 := updateDependencyReadiness state1
      let state3 := { state2 with stats := computeStats state2 }
      let written := writeMigrationState state3 now
      let newlyReady := (written.components.filter (fun c =>
        c.status == .pending && c.dependenciesReady &&
          wasNotReady.contains c.figmaId)).map (fun c => c.name)
      .success written
        { skipped := component.name
          reason := reason
          newReady := newlyReady }
    | none =>
      match state.pages.find? (fun p => p.figmaId == id) with
      | some _ => .error .invalidOperation
      | none => .error (.itemNotFound id)

/-- The component id carried by a node itself, when the node is an
`INSTANCE` with a truthy `componentId` (spec-side notion of "referenced by
an instance node"; self references are not excluded here — the claim
excludes them separately). -/
def ownInstanceRef (d : FigmaNodeData) : List String :=
  match d.componentId with
  | some cid => if d.type = "INSTANCE" ∧ cid ≠ "" then [cid] else []
  | none => []

mutual

/-- The component ids referenced by `INSTANCE` nodes anywhere in a node's
subtree, the node itself included. -/
def subtreeInstanceRefs : Option FigmaNode → List String
  | none => []
  | some (.node d c) =>
    ownInstanceRef d ++
    (match c with
     | some cs => listInstanceRefs cs
     | none => [])

/-- `subtreeInstanceRefs` over a node list. -/
def listInstanceRefs : List (Option FigmaNode) → List String
  | [] => []
  | n :: rest => subtreeInstanceRefs n ++ listInstanceRefs rest

end

/-- The ids referenced by `INSTANCE` nodes strictly below a definition root
(the claim reads "subtree" together with "no children yields the empty
set", i.e. the proper descendants of the root). -/
def descendantInstanceRefs : Option FigmaNode → List String
  | none => []
  | some (.node _ c) =>
    match c with
    | some cs => listInstanceRefs cs
    | none => []

/-- A `TEXT` node with no children (fixture). -/
def childB : FigmaNode :=
  .node { id := "2", name := "B", type := "TEXT" } none

/-- A `FRAME` node with one child (fixture). -/
def parentA : FigmaNode :=
  .node { id := "1", name := "A", type := "FRAME" } (some [some childB])

/-- An `INSTANCE` node referencing `c2` (fixture). -/
def instC2 : FigmaNode :=
  .node { id := "5:1", name := "icon", type := "INSTANCE", componentId := some "c2" } none

/-- An `INSTANCE` node referencing its own component `c1` (fixture). -/
def instSelf : FigmaNode :=
  .node { id := "5:2", name := "selfref", type := "INSTANCE", componentId := some "c1" } none

/-- A second, duplicate `INSTANCE` reference to `c2` (fixture). -/
def instC2dup : FigmaNode :=
  .node { id := "5:4", name := "icon2", type := "INSTANCE", componentId := some "c2" } none

/-- A wrapper frame holding the duplicate reference and a null child
(fixture). -/
def wrapFrame : FigmaNode :=
  .node { id := "5:3", name := "wrap", type := "FRAME" }
    (some [some instC2dup, none])

/-- Definition subtree of component `c1` (fixture): references `c2` twice at
two depths, itself once, and contains a null child. -/
def defnC1 : FigmaNode :=
  .node { id := "1:1", name := "Card", type := "COMPONENT" }
    (some [some instC2, some instSelf, some wrapFrame])

/-- Component-index entry for `c1` (fixture). -/
def entryC1 : ComponentIndexEntry :=
  { name := "Card", instanceCount := 7, definition := some defnC1 }

/-- A one-component index (fixture). -/
def dataC8 : ExtractedData :=
  { pages := [], sections := [], components := [("c1", entryC1)], frames := [] }

/-- The state on disk after an operation: unchanged on error (no write
happens), the written state on success. -/
def resultState {α : Type} (st : MigrationState) (o : OpOutcome α) : MigrationState :=
  match o with
  | .error _ => st
  | .success w _ => w

/-- Whether an operation wrote (succeeded). -/
def OpOutcome.isSuccess {α : Type} : OpOutcome α → Bool
  | .error _ => false
  | .success _ _ => true

/-- Fixture stats block (the stored stats are irrelevant to these claims). -/
def statsFix : MigrationStats :=
  { totalComponents := 2, completedComponents := 0, skippedComponents := 0,
    totalPages := 0, completedPages := 0, phase := .components }

/-- Fixture: pending component `C` with no dependencies. -/
def compCpend : ComponentState :=
  { figmaId := "C", name := "Ccomp", status := .pending, dependencies := [],
    dependenciesReady := true, instanceCount := 2 }

/-- Fixture: component `A`, already `done`, whose stored `dependenciesReady`
is still `false` because its dependency `C` is unresolved. -/
def compAdone : ComponentState :=
  { figmaId := "A", name := "Acomp", status := .done, dependencies := ["C"],
    dependenciesReady := false, instanceCount := 1 }

/-- Fixture state for the C2 counterexample. -/
def sC2 : MigrationState :=
  { figmaFileKey := "unknown", figmaFileUrl := "", createdAt := "t0",
    updatedAt := "t0", stats := statsFix, components := [compCpend, compAdone],
    pages := [] }

/-- Fixture: pending component `A` depending on `B`, not ready. -/
def compApend : ComponentState :=
  { figmaId := "A", name := "Aname", status := .pending, dependencies := ["B"],
    dependenciesReady := false, instanceCount := 4 }

/-- Fixture: pending, ready component `B`. -/
def compBready : ComponentState :=
  { figmaId := "B", name := "Bname", status := .pending, dependencies := [],
    dependenciesReady := true, instanceCount := 9 }

/-- Fixture state for the C2 witness. -/
def sC2w : MigrationState :=
  { figmaFileKey := "unknown", figmaFileUrl := "", createdAt := "t0",
    updatedAt := "t0", stats := statsFix, components := [compApend, compBready],
    pages := [] }

/-- The state written by completing `B` in `sC2w` (fixture). -/
def wC2w : MigrationState :=
  resultState sC2w (migrationComplete (some sC2w) "B" "y.tsx" "t2")

/-- The payload returned by completing `B` in `sC2w` (fixture). -/
def payC2w : CompleteSuccess :=
  ((migrationComplete (some sC2w) "B" "y.tsx" "t2").payload?).getD
    { completed := "", newReady := [], progress := { done := 0, total := 0 } }

/-- Fixture: a skipped component `S`. -/
def compSkippedS : ComponentState :=
  { figmaId := "S", name := "Skippy", status := .skipped, dependencies := [],
    dependenciesReady := true, instanceCount := 1 }

/-- Fixture state for the C3 counterexample. -/
def sSkip : MigrationState :=
  { figmaFileKey := "unknown", figmaFileUrl := "", createdAt := "t0",
    updatedAt := "t0", stats := statsFix, components := [compSkippedS],
    pages := [] }

/-- The component `S` as rewritten by the `complete` of the C3 scenario
(fixture). -/
def compDoneS : ComponentState :=
  { figmaId := "S", name := "Skippy", status := .done, dependencies := [],
    dependenciesReady := true, instanceCount := 1, outputPath := some "out.tsx",
    skipReason := none, completedAt := some "t1" }

/-- Component-index entry without a definition (fixture). -/
def entryBtn : ComponentIndexEntry :=
  { name := "Btn", instanceCount := 3, definition := none }

/-- Second component-index entry without a definition (fixture). -/
def entryCard : ComponentIndexEntry :=
  { name := "Card", instanceCount := 5, definition := none }

/-- Frame-index entry (fixture). -/
def frameHome : FrameIndexEntry :=
  { name := "Home Page", componentsUsed := ["c1", "c2"] }

/-- A small source snapshot whose definitions are absent (fixture). -/
def dataInit : ExtractedData :=
  { pages := [], sections := [],
    components := [("c1", entryBtn), ("c2", entryCard)],
    frames := [("f1", frameHome)] }

/-- The state written by a successful init on `dataInit` (fixture). -/
def wInit : MigrationState :=
  resultState sC2 (migrationInit (some dataInit) none (some "u1") "t1")

/-- The summary returned by that init (fixture). -/
def payInit : InitSummary :=
  ((migrationInit (some dataInit) none (some "u1") "t1").payload?).getD
    { totalComponents := 0, totalPages := 0, readyComponents := 0,
      topReadyComponents := [] }

/-- Fixture: component `X`, pending, depending on resolved `A` and
unresolved `B`. -/
def compXdeps : ComponentState :=
  { figmaId := "X", name := "Xcomp", status := .pending,
    dependencies := ["A", "B"], dependenciesReady := false, instanceCount := 3 }

/-- Fixture: resolved dependency `A`. -/
def compAres : ComponentState :=
  { figmaId := "A", name := "Ares", status := .done, dependencies := [],
    dependenciesReady := true, instanceCount := 1 }

/-- Fixture: unresolved dependency `B`. -/
def compBun : ComponentState :=
  { figmaId := "B", name := "Bun", status := .pending, dependencies := [],
    dependenciesReady := true, instanceCount := 1 }

/-- Fixture state for C5. -/
def sC5 : MigrationState :=
  { figmaFileKey := "unknown", figmaFileUrl := "", createdAt := "t0",
    updatedAt := "t0", stats := statsFix,
    components := [compXdeps, compAres, compBun], pages := [] }

/-- The `migrationNext` result on `sC2w` with filter `any` (fixture). -/
def rC6 : NextSuccess :=
  ((migrationNext (some sC2w) 5 NextTypeFilter.any).toOption).getD
    { phase := .components, items := [], remaining := 0 }

/-- Fixture: pending component `B` depending on the done component `A`. -/
def compBdep : ComponentState :=
  { figmaId := "B", name := "Bdep", status := .pending, dependencies := ["A"],
    dependenciesReady := false, instanceCount := 2 }

/-- Fixture state for the C1 witness. -/
def sInv : MigrationState :=
  { figmaFileKey := "unknown", figmaFileUrl := "", createdAt := "t0",
    updatedAt := "t0", stats := statsFix, components := [compAres, compBdep],
    pages := [] }

/-- `compBdep` as the propagator rewrites it (fixture). -/
def updBfix : ComponentState :=
  { figmaId := "B", name := "Bdep", status := .pending, dependencies := ["A"],
    dependenciesReady := true, instanceCount := 2 }

/-! ## Theorems: general lemmas, the claim theorems, counterexamples
and witnesses -/

@[simp] theorem recomputeComponentReadiness_figmaId (ds : List String) (c : ComponentState) :
    (recomputeComponentReadiness ds c).figmaId = c.figmaId := rfl

@[simp] theorem recomputeComponentReadiness_name (ds : List String) (c : ComponentState) :
    (recomputeComponentReadiness ds c).name = c.name := rfl

@[simp] theorem recomputeComponentReadiness_status (ds : List String) (c : ComponentState) :
    (recomputeComponentReadiness ds c).status = c.status := rfl

@[simp] theorem recomputeComponentReadiness_dependencies (ds : List String) (c : ComponentState) :
    (recomputeComponentReadiness ds c).dependencies = c.dependencies := rfl

@[simp] theorem recomputeComponentReadiness_instanceCount (ds : List String) (c : ComponentState) :
    (recomputeComponentReadiness ds c).instanceCount = c.instanceCount := rfl

@[simp] theorem recomputeComponentReadiness_ready (ds : List String) (c : ComponentState) :
    (recomputeComponentReadiness ds c).dependenciesReady =
      (c.dependencies.isEmpty || c.dependencies.all (fun dep => ds.contains dep)) := rfl

@[simp] theorem recomputePageReadiness_figmaId (ds : List String) (p : PageState) :
    (recomputePageReadiness ds p).figmaId = p.figmaId := rfl

@[simp] theorem recomputePageReadiness_frameName (ds : List String) (p : PageState) :
    (recomputePageReadiness ds p).frameName = p.frameName := rfl

@[simp] theorem recomputePageReadiness_componentsUsed (ds : List String) (p : PageState) :
    (recomputePageReadiness ds p).componentsUsed = p.componentsUsed := rfl

@[simp] theorem recomputePageReadiness_ready (ds : List String) (p : PageState) :
    (recomputePageReadiness ds p).componentsReady =
      p.componentsUsed.all (fun compId => ds.contains compId) := rfl

theorem recomputePageReadiness_status (ds : List String) (p : PageState) :
    (recomputePageReadiness ds p).status =
      (if p.status == .blocked && p.componentsUsed.all (fun compId => ds.contains compId)
       then .pending else p.status) := rfl

/-- Membership in the done-or-skipped id set. -/
theorem mem_doneOrSkippedIds {comps : List ComponentState} {x : String} :
    x ∈ doneOrSkippedIds comps ↔
      ∃ c, c ∈ comps ∧ c.figmaId = x ∧ (c.status = .done ∨ c.status = .skipped) := by
  simp only [doneOrSkippedIds, List.mem_map, List.mem_filter, Bool.or_eq_true,
    beq_iff_eq]
  constructor
  · rintro ⟨c, ⟨hc, hst⟩, hid⟩
    exact ⟨c, hc, hid, hst⟩
  · rintro ⟨c, hc, hid, hst⟩
    exact ⟨c, ⟨hc, hst⟩, hid⟩

/-- `find?` by key commutes with mapping a key-preserving function. -/
theorem find?_map_key {α : Type} (key : α → String) (f : α → α) (l : List α)
    (hid : ∀ a, key (f a) = key a) (id : String) :
    (l.map f).find? (fun a => key a == id) = (l.find? (fun a => key a == id)).map f := by
  induction l with
  | nil => simp
  | cons a l ih =>
    by_cases h : key a == id
    · simp [List.find?_cons, hid, h]
    · simp only [List.map_cons, List.find?_cons, hid, h]
      simpa [h, hid] using ih

/-- With nodup keys, `find?` by key finds exactly the member with that key. -/
theorem find?_key_eq_some_iff {l : List ComponentState}
    (h : (l.map (fun c => c.figmaId)).Nodup) {id : String} {c : ComponentState} :
    l.find? (fun x => x.figmaId == id) = some c ↔ c ∈ l ∧ c.figmaId = id := by
  constructor
  · intro hf
    refine ⟨List.mem_of_find?_eq_some hf, ?_⟩
    have := List.find?_some hf
    simpa [beq_iff_eq] using this
  · rintro ⟨hmem, hid'⟩
    induction l with
    | nil => simp at hmem
    | cons a l ih =>
      simp only [List.map_cons, List.nodup_cons] at h
      rcases List.mem_cons.mp hmem with rfl | hmem'
      · rw [List.find?_cons_of_pos l (p := fun x : ComponentState => x.figmaId == id) (by simp [hid'])]
      · have hne : ¬((fun x : ComponentState => x.figmaId == id) a = true) := by
          simp only [beq_iff_eq]
          intro hcontra
          exact h.1 (List.mem_map.mpr ⟨c, hmem', by rw [hid', hcontra]⟩)
        rw [List.find?_cons_of_neg l hne]
        exact ih h.2 hmem'

/-- With nodup keys, two members with the same key are equal. -/
theorem eq_of_key_eq {l : List ComponentState}
    (h : (l.map (fun c => c.figmaId)).Nodup) {a b : ComponentState}
    (ha : a ∈ l) (hb : b ∈ l) (hid : a.figmaId = b.figmaId) : a = b := by
  exact List.inj_on_of_nodup_map h ha hb hid

/-- **C1.** After any run of `updateDependencyReadiness`, a component's
`dependenciesReady` holds iff its `dependencies` list is empty or every id
in it refers to a component whose status is `done` or `skipped`, and a
page's `componentsReady` holds iff every id in `componentsUsed` refers to a
component whose status is `done` or `skipped`. -/
theorem propagator_readiness_invariant (s : MigrationState) :
    (∀ c ∈ (updateDependencyReadiness s).components,
      c.dependenciesReady = true ↔
        (c.dependencies = [] ∨
          ∀ dep ∈ c.dependencies,
            ∃ c2 ∈ (updateDependencyReadiness s).components,
              c2.figmaId = dep ∧ (c2.status = .done ∨ c2.status = .skipped))) ∧
    (∀ p ∈ (updateDependencyReadiness s).pages,
      p.componentsReady = true ↔
        ∀ cid ∈ p.componentsUsed,
          ∃ c2 ∈ (updateDependencyReadiness s).components,
            c2.figmaId = cid ∧ (c2.status = .done ∨ c2.status = .skipped)) := by
  have hpost : ∀ x : String,
      (∃ c2 ∈ (updateDependencyReadiness s).components,
        c2.figmaId = x ∧ (c2.status = .done ∨ c2.status = .skipped)) ↔
      x ∈ doneOrSkippedIds s.components := by
    intro x
    rw [mem_doneOrSkippedIds]
    simp only [updateDependencyReadiness, List.mem_map]
    constructor
    · rintro ⟨c2, ⟨c0, hc0, rfl⟩, hid, hst⟩
      exact ⟨c0, hc0, hid, hst⟩
    · rintro ⟨c0, hc0, hid, hst⟩
      exact ⟨_, ⟨c0, hc0, rfl⟩, hid, hst⟩
  constructor
  · intro c hc
    simp only [updateDependencyReadiness, List.mem_map] at hc
    obtain ⟨c0, _hc0, rfl⟩ := hc
    simp only [hpost]
    simp [List.isEmpty_iff, List.all_eq_true, List.contains, List.elem_iff]
  · intro p hp
    simp only [updateDependencyReadiness, List.mem_map] at hp
    obtain ⟨p0, _hp0, rfl⟩ := hp
    simp only [hpost]
    simp [List.all_eq_true, List.contains, List.elem_iff]

/-- `doneOrSkippedIds` only depends on statuses and ids. -/
theorem doneOrSkippedIds_map (l : List ComponentState) (f : ComponentState → ComponentState)
    (hst : ∀ c, (f c).status = c.status) (hid : ∀ c, (f c).figmaId = c.figmaId) :
    doneOrSkippedIds (l.map f) = doneOrSkippedIds l := by
  unfold doneOrSkippedIds
  rw [List.filter_map, List.map_map]
  have h1 : (fun c : ComponentState => c.figmaId) ∘ f = fun c => c.figmaId := by
    funext c
    exact hid c
  rw [h1]
  congr 1
  apply List.filter_congr
  intro c _
  simp [Function.comp, hst]

/-- Field-wise extensionality for `MigrationState`. -/
theorem migrationState_ext {a b : MigrationState}
    (h1 : a.figmaFileKey = b.figmaFileKey) (h2 : a.figmaFileUrl = b.figmaFileUrl)
    (h3 : a.createdAt = b.createdAt) (h4 : a.updatedAt = b.updatedAt)
    (h5 : a.stats = b.stats) (h6 : a.components = b.components)
    (h7 : a.pages = b.pages) : a = b := by
  cases a
  cases b
  simp_all

/-- Field-wise extensionality for `PageState`. -/
theorem pageState_ext {a b : PageState}
    (h1 : a.figmaId = b.figmaId) (h2 : a.frameName = b.frameName)
    (h3 : a.status = b.status) (h4 : a.componentsUsed = b.componentsUsed)
    (h5 : a.componentsReady = b.componentsReady) (h6 : a.outputPath = b.outputPath)
    (h7 : a.completedAt = b.completedAt) : a = b := by
  cases a
  cases b
  simp_all

/-- Applying the page recomputation twice with the same id set is the same
as applying it once. -/
theorem recomputePageReadiness_idem (ds : List String) (p : PageState) :
    recomputePageReadiness ds (recomputePageReadiness ds p) =
      recomputePageReadiness ds p := by
  refine pageState_ext rfl rfl ?_ rfl rfl rfl rfl
  simp only [recomputePageReadiness_status, recomputePageReadiness_componentsUsed]
  cases hr : p.componentsUsed.all (fun compId => ds.contains compId)
  · simp
  · by_cases hb : p.status = .blocked
    · simp [hb]
    · simp [hb, beq_iff_eq]

/-- **C7.** `updateDependencyReadiness` is idempotent, changes no component
status, and changes a page status only from `blocked` to `pending`. -/
theorem propagator_idempotent_status_preserving (s : MigrationState) :
    updateDependencyReadiness (updateDependencyReadiness s) = updateDependencyReadiness s ∧
    (updateDependencyReadiness s).components.map (fun c => c.status) =
      s.components.map (fun c => c.status) ∧
    List.Forall₂ (fun p q : PageState =>
        q.status = p.status ∨ (p.status = .blocked ∧ q.status = .pending))
      s.pages (updateDependencyReadiness s).pages := by
  have hc : (updateDependencyReadiness s).components
      = s.components.map (recomputeComponentReadiness (doneOrSkippedIds s.components)) := rfl
  have hp : (updateDependencyReadiness s).pages
      = s.pages.map (recomputePageReadiness (doneOrSkippedIds s.components)) := rfl
  have hds : doneOrSkippedIds ((updateDependencyReadiness s).components)
      = doneOrSkippedIds s.components := by
    rw [hc]
    exact doneOrSkippedIds_map _ _ (fun c => rfl) (fun c => rfl)
  refine ⟨?_, ?_, ?_⟩
  · refine migrationState_ext rfl rfl rfl rfl rfl ?_ ?_
    · show (updateDependencyReadiness s).components.map
          (recomputeComponentReadiness
            (doneOrSkippedIds ((updateDependencyReadiness s).components)))
        = (updateDependencyReadiness s).components
      rw [hds, hc, List.map_map]
      apply List.map_congr_left
      intro c _
      rfl
    · show (updateDependencyReadiness s).pages.map
          (recomputePageReadiness
            (doneOrSkippedIds ((updateDependencyReadiness s).components)))
        = (updateDependencyReadiness s).pages
      rw [hds, hp, List.map_map]
      apply List.map_congr_left
      intro p _
      exact recomputePageReadiness_idem _ _
  · rw [hc, List.map_map]
    apply List.map_congr_left
    intro c _
    rfl
  · rw [hp, List.forall₂_map_right_iff, List.forall₂_same]
    intro p _
    rw [recomputePageReadiness_status]
    cases hr : p.componentsUsed.all
        (fun compId => (doneOrSkippedIds s.components).contains compId)
    · left
      simp
    · by_cases hb : p.status = .blocked
      · right
        exact ⟨hb, by simp [hb]⟩
      · left
        simp [hb, beq_iff_eq]

/-- Generic form of `find?_key_eq_some_iff` for key-carrying pairs. -/
theorem find?_fst_eq_some_iff {α : Type} {l : List (String × α)}
    (h : (l.map Prod.fst).Nodup) {id : String} {x : String × α} :
    l.find? (fun e => e.1 == id) = some x ↔ x ∈ l ∧ x.1 = id := by
  constructor
  · intro hf
    refine ⟨List.mem_of_find?_eq_some hf, ?_⟩
    have := List.find?_some hf
    simpa [beq_iff_eq] using this
  · rintro ⟨hmem, hid'⟩
    induction l with
    | nil => simp at hmem
    | cons a l ih =>
      simp only [List.map_cons, List.nodup_cons] at h
      rcases List.mem_cons.mp hmem with rfl | hmem'
      · rw [List.find?_cons_of_pos l (p := fun e : String × α => e.1 == id) (by simp [hid'])]
      · have hne : ¬((fun e : String × α => e.1 == id) a = true) := by
          simp only [beq_iff_eq]
          intro hcontra
          exact h.1 (List.mem_map.mpr ⟨x, hmem', by rw [hid', hcontra]⟩)
        rw [List.find?_cons_of_neg l hne]
        exact ih h.2 hmem'

/-- Membership in `setAdd`. -/
theorem mem_setAdd {l : List String} {x y : String} :
    x ∈ setAdd l y ↔ x ∈ l ∨ x = y := by
  unfold setAdd
  by_cases h : l.contains y
  · have hy : y ∈ l := by simpa [List.contains, List.elem_iff] using h
    rw [if_pos h]
    constructor
    · exact Or.inl
    · rintro (hx | rfl)
      · exact hx
      · exact hy
  · rw [if_neg h]
    simp

/-- `setAdd` preserves distinctness. -/
theorem nodup_setAdd {l : List String} (h : l.Nodup) (y : String) :
    (setAdd l y).Nodup := by
  unfold setAdd
  by_cases hc : l.contains y
  · rw [if_pos hc]
    exact h
  · have hy : y ∉ l := by simpa [List.contains, List.elem_iff] using hc
    rw [if_neg hc]
    simp [List.nodup_append, h, hy]

/-- The node-local accumulator step of `findInstanceDependencies` adds
exactly the node's own non-self instance reference. -/
theorem mem_instanceStep (d : FigmaNodeData) (deps : List String)
    (selfId x : String) :
    x ∈ (if (d.type == "INSTANCE" && strTruthy d.componentId &&
              d.componentId.getD "" != selfId) = true
         then setAdd deps (d.componentId.getD "") else deps) ↔
      x ∈ deps ∨ (x ∈ ownInstanceRef d ∧ x ≠ selfId) := by
  cases hcid : d.componentId with
  | none => simp [strTruthy, hcid, ownInstanceRef]
  | some cid =>
    by_cases ht : d.type = "INSTANCE"
    · by_cases he : cid = ""
      · simp [strTruthy, hcid, ownInstanceRef, he]
      · by_cases hs : cid = selfId
        · simp [strTruthy, hcid, ownInstanceRef, he, ht, hs, bne_iff_ne]
        · simp [strTruthy, hcid, ownInstanceRef, he, ht, hs, bne_iff_ne,
            mem_setAdd]
          constructor
          · rintro (hx | rfl)
            · exact Or.inl hx
            · exact Or.inr ⟨rfl, hs⟩
          · rintro (hx | ⟨rfl, _⟩)
            · exact Or.inl hx
            · exact Or.inr rfl
    · simp [strTruthy, hcid, ownInstanceRef, ht]

/-- What `findInstanceDependencies` computes: the accumulator plus every
non-self instance reference in the forest. -/
theorem mem_findInstanceDependencies (nodes : List (Option FigmaNode))
    (acc : List String) (selfId : String) (x : String) :
    x ∈ findInstanceDependencies nodes acc selfId ↔
      x ∈ acc ∨ (x ∈ listInstanceRefs nodes ∧ x ≠ selfId) := by
  induction nodes, acc, selfId using findInstanceDependencies.induct with
  | case1 deps selfId => simp [findInstanceDependencies, listInstanceRefs]
  | case2 rest deps selfId ih =>
    rw [findInstanceDependencies]
    rw [ih]
    simp [listInstanceRefs, subtreeInstanceRefs]
  | case3 d c rest deps selfId deps1 hdeps1 deps2 hdeps2 ih =>
    cases c with
    | none =>
      rw [findInstanceDependencies.eq_4]
      have hmem := mem_instanceStep d deps selfId x
      generalize hG : (if (d.type == "INSTANCE" && strTruthy d.componentId &&
          d.componentId.getD "" != selfId) = true
        then setAdd deps (d.componentId.getD "") else deps) = D at hmem ⊢
      have hD : deps1 = D := hG
      have ih' : x ∈ findInstanceDependencies rest deps1 selfId ↔
          x ∈ deps1 ∨ (x ∈ listInstanceRefs rest ∧ x ≠ selfId) := ih
      rw [hD] at ih'
      rw [ih', hmem]
      simp only [listInstanceRefs, subtreeInstanceRefs, List.mem_append,
        List.not_mem_nil, or_false, false_or]
      tauto
    | some cs =>
      rw [findInstanceDependencies.eq_3]
      have hmem := mem_instanceStep d deps selfId x
      generalize hG : (if (d.type == "INSTANCE" && strTruthy d.componentId &&
          d.componentId.getD "" != selfId) = true
        then setAdd deps (d.componentId.getD "") else deps) = D at hmem ⊢
      have hD : deps1 = D := hG
      have hin : x ∈ findInstanceDependencies cs deps1 selfId ↔
          x ∈ deps1 ∨ (x ∈ listInstanceRefs cs ∧ x ≠ selfId) := deps2
      have ih' : x ∈ findInstanceDependencies rest
            (findInstanceDependencies cs deps1 selfId) selfId ↔
          x ∈ findInstanceDependencies cs deps1 selfId ∨
            (x ∈ listInstanceRefs rest ∧ x ≠ selfId) := ih
      rw [hD] at hin ih'
      rw [ih', hin, hmem]
      simp only [listInstanceRefs, subtreeInstanceRefs, List.mem_append]
      constructor
      · rintro (((hx | ⟨h1, h2⟩) | ⟨h1, h2⟩) | ⟨h1, h2⟩)
        · exact Or.inl hx
        · exact Or.inr ⟨Or.inl (Or.inl h1), h2⟩
        · exact Or.inr ⟨Or.inl (Or.inr h1), h2⟩
        · exact Or.inr ⟨Or.inr h1, h2⟩
      · rintro (hx | ⟨(h1 | h1) | h1, h2⟩)
        · exact Or.inl (Or.inl (Or.inl hx))
        · exact Or.inl (Or.inl (Or.inr ⟨h1, h2⟩))
        · exact Or.inl (Or.inr ⟨h1, h2⟩)
        · exact Or.inr ⟨h1, h2⟩

/-- `findInstanceDependencies` keeps the accumulator duplicate-free. -/
theorem nodup_findInstanceDependencies (nodes : List (Option FigmaNode))
    (acc : List String) (selfId : String) :
    acc.Nodup → (findInstanceDependencies nodes acc selfId).Nodup := by
  induction nodes, acc, selfId using findInstanceDependencies.induct with
  | case1 deps selfId =>
    intro h
    rw [findInstanceDependencies.eq_1]
    exact h
  | case2 rest deps selfId ih =>
    intro h
    rw [findInstanceDependencies.eq_2]
    exact ih h
  | case3 d c rest deps selfId deps1 hdeps1 deps2 hdeps2 ih =>
    intro h
    cases c with
    | none =>
      rw [findInstanceDependencies.eq_4]
      have hstep : (if (d.type == "INSTANCE" && strTruthy d.componentId &&
          d.componentId.getD "" != selfId) = true
        then setAdd deps (d.componentId.getD "") else deps).Nodup := by
        split
        · exact nodup_setAdd h _
        · exact h
      generalize hG : (if (d.type == "INSTANCE" && strTruthy d.componentId &&
          d.componentId.getD "" != selfId) = true
        then setAdd deps (d.componentId.getD "") else deps) = D at hstep ⊢
      have hD : deps1 = D := hG
      have ih' : deps1.Nodup → (findInstanceDependencies rest deps1 selfId).Nodup := ih
      rw [hD] at ih'
      exact ih' hstep
    | some cs =>
      rw [findInstanceDependencies.eq_3]
      have hstep : (if (d.type == "INSTANCE" && strTruthy d.componentId &&
          d.componentId.getD "" != selfId) = true
        then setAdd deps (d.componentId.getD "") else deps).Nodup := by
        split
        · exact nodup_setAdd h _
        · exact h
      generalize hG : (if (d.type == "INSTANCE" && strTruthy d.componentId &&
          d.componentId.getD "" != selfId) = true
        then setAdd deps (d.componentId.getD "") else deps) = D at hstep ⊢
      have hD : deps1 = D := hG
      have hchild : deps1.Nodup → (findInstanceDependencies cs deps1 selfId).Nodup := deps2
      have ih' : (findInstanceDependencies cs deps1 selfId).Nodup →
          (findInstanceDependencies rest
            (findInstanceDependencies cs deps1 selfId) selfId).Nodup := ih
      rw [hD] at hchild ih'
      exact ih' (hchild hstep)

/-- **C8.** For every component index (with the `Record` keys unique), the
dependency graph builder yields, per component id, exactly the distinct
component ids referenced by an `INSTANCE` node anywhere below the
component's definition root, the component's own id excluded; a missing
definition or one without children yields the empty set. -/
theorem dependency_builder_spec (data : ExtractedData)
    (hkeys : (data.components.map Prod.fst).Nodup) :
    ∀ cid entry, (cid, entry) ∈ data.components →
      ∃ l, (buildComponentDependencies data).find? (fun e => e.1 == cid) = some (cid, l) ∧
        l.Nodup ∧
        (∀ x, x ∈ l ↔ (x ∈ descendantInstanceRefs entry.definition ∧ x ≠ cid)) := by
  intro cid entry hmem
  have hkeys2 : ((buildComponentDependencies data).map Prod.fst).Nodup := by
    have : (buildComponentDependencies data).map Prod.fst = data.components.map Prod.fst := by
      unfold buildComponentDependencies
      rw [List.map_map]
      rfl
    rw [this]
    exact hkeys
  have hfind : (buildComponentDependencies data).find? (fun e => e.1 == cid)
      = some (cid,
        match entry.definition with
        | some defn =>
          match defn.children with
          | some cs => findInstanceDependencies cs [] cid
          | none => []
        | none => []) := by
    apply (find?_fst_eq_some_iff hkeys2).mpr
    constructor
    · unfold buildComponentDependencies
      exact List.mem_map.mpr ⟨(cid, entry), hmem, rfl⟩
    · rfl
  refine ⟨_, hfind, ?_, ?_⟩
  · cases hdef : entry.definition with
    | none => simp
    | some defn =>
      cases defn with
      | node d c =>
        cases c with
        | none =>
          show ([] : List String).Nodup
          simp
        | some cs =>
          show (findInstanceDependencies cs [] cid).Nodup
          exact nodup_findInstanceDependencies cs [] cid List.nodup_nil
  · intro x
    cases hdef : entry.definition with
    | none => simp [descendantInstanceRefs]
    | some defn =>
      cases defn with
      | node d c =>
        cases c with
        | none =>
          show x ∈ ([] : List String) ↔ _
          simp [descendantInstanceRefs]
        | some cs =>
          show x ∈ findInstanceDependencies cs [] cid ↔ _
          rw [mem_findInstanceDependencies]
          simp [descendantInstanceRefs]

/-- Hoisting the accumulator out of a string foldl. -/
theorem string_foldl_append (l : List String) :
    ∀ acc : String, l.foldl (fun a b => a ++ b) acc
      = acc ++ l.foldl (fun a b => a ++ b) "" := by
  induction l with
  | nil =>
    intro acc
    simp [String.append_empty]
  | cons x xs ih =>
    intro acc
    simp only [List.foldl_cons]
    rw [ih (acc ++ x), ih ("" ++ x)]
    have h0 : ("" ++ x) = x := rfl
    rw [h0, String.append_assoc]

/-- `String.join` distributes over `cons`. -/
theorem string_join_cons (a : String) (l : List String) :
    String.join (a :: l) = a ++ String.join l := by
  show (a :: l).foldl (fun a b => a ++ b) "" = a ++ l.foldl (fun a b => a ++ b) ""
  simp only [List.foldl_cons]
  rw [string_foldl_append l ("" ++ a)]
  have h0 : ("" ++ a) = a := rfl
  rw [h0]

/-- `joinLines` step on a cons with nonempty tail. -/
theorem joinLines_cons (x : String) (xs : List String) (h : xs ≠ []) :
    joinLines (x :: xs) = x ++ "\n" ++ joinLines xs := by
  cases xs with
  | nil => exact absurd rfl h
  | cons y ys => rfl

/-- `joinLines` splits over the append of two nonempty line blocks. -/
theorem joinLines_append (A B : List String) (hA : A ≠ []) (hB : B ≠ []) :
    joinLines (A ++ B) = joinLines A ++ "\n" ++ joinLines B := by
  induction A with
  | nil => exact absurd rfl hA
  | cons a A ih =>
    cases A with
    | nil =>
      rw [List.singleton_append, joinLines_cons a B hB]
      rfl
    | cons a2 A2 =>
      have hA2 : (a2 :: A2 : List String) ≠ [] := by simp
      rw [List.cons_append, joinLines_cons a ((a2 :: A2) ++ B) (by simp),
        joinLines_cons a (a2 :: A2) hA2, ih hA2]
      simp [String.append_assoc]

/-- `joinLines` of a head line and a block of lines, each prefixed by a
newline. -/
theorem joinLines_cons_join (x : String) (xs : List String) :
    joinLines (x :: xs) = x ++ String.join (xs.map (fun b => "\n" ++ b)) := by
  induction xs generalizing x with
  | nil =>
    show x = x ++ String.join []
    rw [show String.join [] = "" from rfl, String.append_empty]
  | cons y ys ih =>
    rw [joinLines_cons x (y :: ys) (by simp), ih y, List.map_cons, string_join_cons]
    simp [String.append_assoc]

/-- `joinLines` of a nonempty block starts with its first line. -/
theorem joinLines_head_append (x : String) (xs : List String) :
    ∃ r, joinLines (x :: xs) = x ++ r := by
  cases xs with
  | nil => exact ⟨"", (String.append_empty x).symm⟩
  | cons y ys =>
    refine ⟨"\n" ++ joinLines (y :: ys), ?_⟩
    rw [joinLines_cons x (y :: ys) (by simp), String.append_assoc]

/-- The first element of `formatLines` is the node header line. -/
theorem formatLines_head (d : FigmaNodeData) (depth : Nat) :
    ∃ t, formatLines d depth =
      (strRepeat "  " depth ++ "[" ++ d.type ++ "] \"" ++ d.name ++
        "\" (id: " ++ d.id ++ ")") :: t :=
  ⟨_, rfl⟩

/-- `formatLines` is never empty. -/
theorem formatLines_ne_nil (d : FigmaNodeData) (depth : Nat) :
    formatLines d depth ≠ [] := by
  obtain ⟨t, ht⟩ := formatLines_head d depth
  rw [ht]
  simp

/-- Two more depth units mean four more indent spaces. -/
theorem strRepeat_two_more (depth : Nat) :
    strRepeat "  " (depth + 2) = "    " ++ strRepeat "  " depth := by
  show "  " ++ ("  " ++ strRepeat "  " depth) = "    " ++ strRepeat "  " depth
  rw [← String.append_assoc]
  rfl

/-- Every non-null node formats to a string that starts with the
two-spaces-per-depth-unit indent followed by the bracketed header. -/
theorem formatFigmaDefinition_head (d : FigmaNodeData)
    (children : Option (List (Option FigmaNode))) (depth : Nat) :
    ∃ r, formatFigmaDefinition (some (FigmaNode.node d children)) depth =
      strRepeat "  " depth ++ "[" ++ r := by
  obtain ⟨t, ht⟩ := formatLines_head d depth
  cases children with
  | some cs =>
    rw [formatFigmaDefinition.eq_2, ht, List.cons_append]
    obtain ⟨r, hr⟩ := joinLines_head_append _ _
    rw [hr]
    refine ⟨d.type ++ "] \"" ++ d.name ++ "\" (id: " ++ d.id ++ ")" ++ r, ?_⟩
    simp [String.append_assoc]
  | none =>
    rw [formatFigmaDefinition.eq_3, ht, List.cons_append]
    obtain ⟨r, hr⟩ := joinLines_head_append _ _
    rw [hr]
    refine ⟨d.type ++ "] \"" ++ d.name ++ "\" (id: " ++ d.id ++ ")" ++ r, ?_⟩
    simp [String.append_assoc]

/-- **C9 (amended).** The formatter maps `null` to `"null"`; a node with a
nonempty children array formats, while `depth < 4`, to its header lines
followed by a `children (n):` line and each child recursively formatted at
`depth + 2` — i.e. indented four spaces deeper than the parent, since each
depth unit is two spaces — and, at `depth ≥ 4`, to its header lines followed
by a count-only truncation line. -/
theorem formatter_depth_children_spec :
    (∀ depth, formatFigmaDefinition none depth = "null") ∧
    (∀ depth, strRepeat "  " (depth + 2) = "    " ++ strRepeat "  " depth) ∧
    (∀ d children depth,
      ∃ r, formatFigmaDefinition (some (FigmaNode.node d children)) depth =
        strRepeat "  " depth ++ "[" ++ r) ∧
    (∀ d (cs : List (Option FigmaNode)) depth, cs ≠ [] → depth < 4 →
      formatFigmaDefinition (some (FigmaNode.node d (some cs))) depth =
        formatFigmaDefinition (some (FigmaNode.node d none)) depth ++ "\n" ++
        strRepeat "  " depth ++ "  children (" ++ toString cs.length ++ "):" ++
        String.join (cs.map (fun c => "\n" ++ formatFigmaDefinition c (depth + 2)))) ∧
    (∀ d (cs : List (Option FigmaNode)) depth, cs ≠ [] → 4 ≤ depth →
      formatFigmaDefinition (some (FigmaNode.node d (some cs))) depth =
        formatFigmaDefinition (some (FigmaNode.node d none)) depth ++ "\n" ++
        strRepeat "  " depth ++ "  children: " ++ toString cs.length ++
        " nodes (truncated)") := by
  have hnone : ∀ d depth, formatFigmaDefinition (some (FigmaNode.node d none)) depth
      = joinLines (formatLines d depth) := by
    intro d depth
    rw [formatFigmaDefinition.eq_3]
    rw [show (formatLines d depth ++ [] : List String) = formatLines d depth from
      List.append_nil _]
  refine ⟨fun depth => formatFigmaDefinition.eq_1 depth, strRepeat_two_more,
    formatFigmaDefinition_head, ?_, ?_⟩
  · intro d cs depth hcs hdepth
    rw [formatFigmaDefinition.eq_2]
    rw [if_pos (List.length_pos.mpr hcs), if_pos hdepth]
    rw [joinLines_append _ _ (formatLines_ne_nil d depth) (by simp)]
    rw [joinLines_cons_join]
    rw [List.map_map]
    have hattach : cs.attach.map
        ((fun b => "\n" ++ b) ∘ (fun c => formatFigmaDefinition c.1 (depth + 2)))
        = cs.map (fun c => "\n" ++ formatFigmaDefinition c (depth + 2)) := by
      rw [← List.attach_map_coe cs (fun c => "\n" ++ formatFigmaDefinition c (depth + 2))]
      rfl
    rw [hattach, hnone]
    simp [String.append_assoc]
  · intro d cs depth hcs hdepth
    rw [formatFigmaDefinition.eq_2]
    rw [if_pos (List.length_pos.mpr hcs), if_neg (by omega)]
    rw [joinLines_append _ _ (formatLines_ne_nil d depth) (by simp)]
    rw [hnone]
    have hsingle : joinLines [strRepeat "  " depth ++ "  children: " ++
        toString cs.length ++ " nodes (truncated)"]
        = strRepeat "  " depth ++ "  children: " ++ toString cs.length ++
          " nodes (truncated)" := rfl
    rw [hsingle]
    simp [String.append_assoc]

/-- Witness for C8 at a concrete index. -/
theorem dependency_builder_spec_witness :
    ∃ l, (buildComponentDependencies dataC8).find? (fun e => e.1 == "c1")
        = some ("c1", l) ∧
      l.Nodup ∧
      (∀ x, x ∈ l ↔ (x ∈ descendantInstanceRefs entryC1.definition ∧ x ≠ "c1")) :=
  dependency_builder_spec dataC8 (by simp [dataC8]) "c1" entryC1
    (by simp [dataC8])

/-- **C9 counterexample.** The claim predicts each child is indented two
spaces deeper than its parent; the code recurses with `depth + 2` (four
spaces), so on a root with one child the child line carries four leading
spaces, not two. -/
theorem formatter_indent_counterexample :
    formatFigmaDefinition (some parentA) 0 =
      "[FRAME] \"A\" (id: 1)\n  children (1):\n    [TEXT] \"B\" (id: 2)" ∧
    formatFigmaDefinition (some parentA) 0 ≠
      "[FRAME] \"A\" (id: 1)\n  children (1):\n  [TEXT] \"B\" (id: 2)" := by
  have hchild : formatFigmaDefinition (some childB) (0 + 2)
      = "    [TEXT] \"B\" (id: 2)" := by
    show formatFigmaDefinition (some (FigmaNode.node
      { id := "2", name := "B", type := "TEXT" } none)) (0 + 2) = _
    rw [formatFigmaDefinition.eq_3]
    rfl
  have hmain : formatFigmaDefinition (some parentA) 0 =
      "[FRAME] \"A\" (id: 1)\n  children (1):\n    [TEXT] \"B\" (id: 2)" := by
    show formatFigmaDefinition (some (FigmaNode.node
      { id := "1", name := "A", type := "FRAME" } (some [some childB]))) 0 = _
    rw [formatFigmaDefinition.eq_2]
    rw [show ([some childB] : List (Option FigmaNode)).attach.map
        (fun c => formatFigmaDefinition c.1 (0 + 2))
        = [formatFigmaDefinition (some childB) (0 + 2)] from rfl]
    rw [hchild]
    rfl
  exact ⟨hmain, by rw [hmain]; decide⟩

/-- Witness for C9: the depth-capped children equation applied at a concrete
node and depth, all hypotheses discharged. -/
theorem formatter_depth_children_spec_witness :
    formatFigmaDefinition (some (FigmaNode.node
        { id := "1", name := "A", type := "FRAME" } (some [some childB]))) 0 =
      formatFigmaDefinition (some (FigmaNode.node
        { id := "1", name := "A", type := "FRAME" } none)) 0 ++ "\n" ++
      strRepeat "  " 0 ++ "  children (" ++
        toString ([some childB] : List (Option FigmaNode)).length ++ "):" ++
      String.join (([some childB] : List (Option FigmaNode)).map
        (fun c => "\n" ++ formatFigmaDefinition c (0 + 2))) :=
  formatter_depth_children_spec.2.2.2.1
    { id := "1", name := "A", type := "FRAME" } [some childB] 0
    (by simp) (by omega)

@[simp] theorem startComponentUpdate_figmaId (id : String) (c : ComponentState) :
    (startComponentUpdate id c).figmaId = c.figmaId := by
  unfold startComponentUpdate
  split <;> rfl

@[simp] theorem startPageUpdate_figmaId (id : String) (p : PageState) :
    (startPageUpdate id p).figmaId = p.figmaId := by
  unfold startPageUpdate
  split <;> rfl

@[simp] theorem completeComponentUpdate_figmaId (id o n : String) (c : ComponentState) :
    (completeComponentUpdate id o n c).figmaId = c.figmaId := by
  unfold completeComponentUpdate
  split <;> rfl

@[simp] theorem completePageUpdate_figmaId (id o n : String) (p : PageState) :
    (completePageUpdate id o n p).figmaId = p.figmaId := by
  unfold completePageUpdate
  split <;> rfl

@[simp] theorem skipComponentUpdate_figmaId (id r n : String) (c : ComponentState) :
    (skipComponentUpdate id r n c).figmaId = c.figmaId := by
  unfold skipComponentUpdate
  split <;> rfl

theorem startComponentUpdate_status (id : String) (c : ComponentState) :
    (startComponentUpdate id c).status
      = (if c.figmaId == id then .in_progress else c.status) := by
  unfold startComponentUpdate
  split <;> rfl

theorem startPageUpdate_status (id : String) (p : PageState) :
    (startPageUpdate id p).status
      = (if p.figmaId == id then .in_progress else p.status) := by
  unfold startPageUpdate
  split <;> rfl

theorem completeComponentUpdate_status (id o n : String) (c : ComponentState) :
    (completeComponentUpdate id o n c).status
      = (if c.figmaId == id then .done else c.status) := by
  unfold completeComponentUpdate
  split <;> rfl

theorem completePageUpdate_status (id o n : String) (p : PageState) :
    (completePageUpdate id o n p).status
      = (if p.figmaId == id then .done else p.status) := by
  unfold completePageUpdate
  split <;> rfl

theorem skipComponentUpdate_status (id r n : String) (c : ComponentState) :
    (skipComponentUpdate id r n c).status
      = (if c.figmaId == id then .skipped else c.status) := by
  unfold skipComponentUpdate
  split <;> rfl

@[simp] theorem completeComponentUpdate_name (id o n : String) (c : ComponentState) :
    (completeComponentUpdate id o n c).name = c.name := by
  unfold completeComponentUpdate
  split <;> rfl

@[simp] theorem skipComponentUpdate_name (id r n : String) (c : ComponentState) :
    (skipComponentUpdate id r n c).name = c.name := by
  unfold skipComponentUpdate
  split <;> rfl

@[simp] theorem completeComponentUpdate_dependencies (id o n : String) (c : ComponentState) :
    (completeComponentUpdate id o n c).dependencies = c.dependencies := by
  unfold completeComponentUpdate
  split <;> rfl

@[simp] theorem skipComponentUpdate_dependencies (id r n : String) (c : ComponentState) :
    (skipComponentUpdate id r n c).dependencies = c.dependencies := by
  unfold skipComponentUpdate
  split <;> rfl

/-- The post-state entry with a given key is the image of the pre-state
entry under the per-entry map. -/
theorem clookup_rel {s W : MigrationState} {f : ComponentState → ComponentState}
    (hW : W.components = s.components.map f)
    (hid : ∀ c, (f c).figmaId = c.figmaId) {cid : String} {c c' : ComponentState}
    (hc : clookup s cid = some c) (hc' : clookup W cid = some c') : c' = f c := by
  unfold clookup at hc hc'
  rw [hW, find?_map_key (fun x => x.figmaId) f _ hid, hc] at hc'
  exact (Option.some.inj hc').symm

/-- Page analogue of `clookup_rel`. -/
theorem plookup_rel {s W : MigrationState} {f : PageState → PageState}
    (hW : W.pages = s.pages.map f)
    (hid : ∀ p, (f p).figmaId = p.figmaId) {pid : String} {p p' : PageState}
    (hp : plookup s pid = some p) (hp' : plookup W pid = some p') : p' = f p := by
  unfold plookup at hp hp'
  rw [hW, find?_map_key (fun x => x.figmaId) f _ hid, hp] at hp'
  exact (Option.some.inj hp').symm

/-- Two-step version of `clookup_rel` for a post-state built by two
successive maps. -/
theorem clookup_rel2 {s W : MigrationState}
    {f g : ComponentState → ComponentState}
    (hW : W.components = (s.components.map f).map g)
    (hidf : ∀ c, (f c).figmaId = c.figmaId)
    (hidg : ∀ c, (g c).figmaId = c.figmaId) {cid : String} {c c' : ComponentState}
    (hc : clookup s cid = some c) (hc' : clookup W cid = some c') : c' = g (f c) := by
  unfold clookup at hc hc'
  rw [hW, find?_map_key (fun x => x.figmaId) g _ hidg,
    find?_map_key (fun x => x.figmaId) f _ hidf, hc] at hc'
  exact (Option.some.inj hc').symm

/-- The key found by `clookup` is the requested one. -/
theorem clookup_key {s : MigrationState} {cid : String} {c : ComponentState}
    (hc : clookup s cid = some c) : c.figmaId = cid := by
  have := List.find?_some hc
  simpa [beq_iff_eq] using this

/-- The key found by `plookup` is the requested one. -/
theorem plookup_key {s : MigrationState} {pid : String} {p : PageState}
    (hp : plookup s pid = some p) : p.figmaId = pid := by
  have := List.find?_some hp
  simpa [beq_iff_eq] using this

/-- Lookup under an unchanged components list. -/
theorem clookup_unchanged {s W : MigrationState}
    (hW : W.components = s.components) {cid : String} {c c' : ComponentState}
    (hc : clookup s cid = some c) (hc' : clookup W cid = some c') : c' = c := by
  unfold clookup at hc hc'
  rw [hW, hc] at hc'
  exact (Option.some.inj hc').symm

/-- Lookup under an unchanged pages list. -/
theorem plookup_unchanged {s W : MigrationState}
    (hW : W.pages = s.pages) {pid : String} {p p' : PageState}
    (hp : plookup s pid = some p) (hp' : plookup W pid = some p') : p' = p := by
  unfold plookup at hp hp'
  rw [hW, hp] at hp'
  exact (Option.some.inj hp').symm

/-- **C3 (amended).** Status transitions performed by the operations:
`start` moves only its target — a component from `pending`/`in_progress` to
`in_progress`, a page from a non-`done` status to `in_progress`; `complete`
sets its target component to `done` regardless of the current status
(`pending` and even `skipped` included) and its target page to `done`;
`skip` sets its target component to `skipped` regardless of the current
status; completing or skipping a component may additionally move `blocked`
pages to `pending` through the propagator; no other status changes occur. -/
theorem status_transitions_characterization (s : MigrationState)
    (data : Option ExtractedData) (id path reason now : String) :
    (∀ cid c c', clookup s cid = some c →
      clookup (resultState s (migrationStart (some s) data id now)) cid = some c' →
      (c'.status = c.status ∨
        (cid = id ∧ (c.status = .pending ∨ c.status = .in_progress) ∧
          c'.status = .in_progress))) ∧
    (∀ pid p p', plookup s pid = some p →
      plookup (resultState s (migrationStart (some s) data id now)) pid = some p' →
      (p'.status = p.status ∨
        (pid = id ∧ p.status ≠ .done ∧ p'.status = .in_progress))) ∧
    (∀ cid c c', clookup s cid = some c →
      clookup (resultState s (migrationComplete (some s) id path now)) cid = some c' →
      (c'.status = c.status ∨ (cid = id ∧ c'.status = .done))) ∧
    (∀ pid p p', plookup s pid = some p →
      plookup (resultState s (migrationComplete (some s) id path now)) pid = some p' →
      (p'.status = p.status ∨ (pid = id ∧ p'.status = .done) ∨
        (p.status = .blocked ∧ p'.status = .pending))) ∧
    (∀ cid c c', clookup s cid = some c →
      clookup (resultState s (migrationSkip (some s) id reason now)) cid = some c' →
      (c'.status = c.status ∨ (cid = id ∧ c'.status = .skipped))) ∧
    (∀ pid p p', plookup s pid = some p →
      plookup (resultState s (migrationSkip (some s) id reason now)) pid = some p' →
      (p'.status = p.status ∨ (p.status = .blocked ∧ p'.status = .pending))) := by
  refine ⟨?_, ?_, ?_, ?_, ?_, ?_⟩
  -- start, components
  · intro cid c c' hc hc'
    cases data with
    | none =>
      left
      rw [clookup_unchanged rfl hc hc']
    | some figma =>
      cases hfind : s.components.find? (fun x => x.figmaId == id) with
      | some comp =>
        by_cases hterm : (comp.status == ComponentStatus.done ||
            comp.status == ComponentStatus.skipped) = true
        · have hW : (resultState s (migrationStart (some s) (some figma) id now)).components
              = s.components := by
            simp only [migrationStart, hfind, hterm, if_true, resultState]
          left
          rw [clookup_unchanged hW hc hc']
        · by_cases hready : (!comp.dependenciesReady) = true
          · have hW : (resultState s (migrationStart (some s) (some figma) id now)).components
                = s.components := by
              simp only [migrationStart, hfind, hterm, hready, if_true, if_false,
                Bool.false_eq_true, resultState]
            left
            rw [clookup_unchanged hW hc hc']
          · have hW : (resultState s (migrationStart (some s) (some figma) id now)).components
                = s.components.map (startComponentUpdate id) := by
              simp only [migrationStart, hfind, hterm, hready, if_false,
                Bool.false_eq_true, resultState, writeMigrationState]
            have hcc := clookup_rel hW (startComponentUpdate_figmaId id) hc hc'
            rw [hcc, startComponentUpdate_status]
            by_cases hcid : (c.figmaId == id) = true
            · right
              have hkey := clookup_key hc
              have hcidEq : cid = id := by
                rw [← hkey]
                exact (beq_iff_eq.mp hcid).symm ▸ rfl
              have hceq : c = comp := by
                have : clookup s id = some c := by
                  rw [← hcidEq]
                  exact hc
                unfold clookup at this
                rw [hfind] at this
                exact (Option.some.inj this).symm
              refine ⟨hcidEq, ?_, by rw [if_pos hcid]⟩
              rw [hceq]
              cases hstat : comp.status with
              | pending => exact Or.inl rfl
              | in_progress => exact Or.inr rfl
              | done => rw [hstat] at hterm; simp at hterm
              | skipped => rw [hstat] at hterm; simp at hterm
            · left
              rw [if_neg hcid]
      | none =>
        have hP : ∀ o : OpOutcome StartPayload,
            (∀ w pay, o = .success w pay → w.components = s.components) →
            True := fun _ _ => trivial
        cases hpfind : s.pages.find? (fun x => x.figmaId == id) with
        | some page =>
          by_cases hdone : (page.status == PageStatus.done) = true
          · have hW : (resultState s (migrationStart (some s) (some figma) id now)).components
                = s.components := by
              simp only [migrationStart, hfind, hpfind, hdone, if_true, resultState]
            left
            rw [clookup_unchanged hW hc hc']
          · by_cases hready : (!page.componentsReady) = true
            · have hW : (resultState s (migrationStart (some s) (some figma) id now)).components
                  = s.components := by
                simp only [migrationStart, hfind, hpfind, hdone, hready, if_true,
                  if_false, Bool.false_eq_true, resultState]
              left
              rw [clookup_unchanged hW hc hc']
            · have hW : (resultState s (migrationStart (some s) (some figma) id now)).components
                  = s.components := by
                simp only [migrationStart, hfind, hpfind, hdone, hready, if_false,
                  Bool.false_eq_true, resultState, writeMigrationState]
              left
              rw [clookup_unchanged hW hc hc']
        | none =>
          have hW : (resultState s (migrationStart (some s) (some figma) id now)).components
              = s.components := by
            simp only [migrationStart, hfind, hpfind, resultState]
          left
          rw [clookup_unchanged hW hc hc']
  -- start, pages
  · intro pid p p' hp hp'
    cases data with
    | none =>
      left
      rw [plookup_unchanged rfl hp hp']
    | some figma =>
      cases hfind : s.components.find? (fun x => x.figmaId == id) with
      | some comp =>
        by_cases hterm : (comp.status == ComponentStatus.done ||
            comp.status == ComponentStatus.skipped) = true
        · have hW : (resultState s (migrationStart (some s) (some figma) id now)).pages
              = s.pages := by
            simp only [migrationStart, hfind, hterm, if_true, resultState]
          left
          rw [plookup_unchanged hW hp hp']
        · by_cases hready : (!comp.dependenciesReady) = true
          · have hW : (resultState s (migrationStart (some s) (some figma) id now)).pages
                = s.pages := by
              simp only [migrationStart, hfind, hterm, hready, if_true, if_false,
                Bool.false_eq_true, resultState]
            left
            rw [plookup_unchanged hW hp hp']
          · have hW : (resultState s (migrationStart (some s) (some figma) id now)).pages
                = s.pages := by
              simp only [migrationStart, hfind, hterm, hready, if_false,
                Bool.false_eq_true, resultState, writeMigrationState]
            left
            rw [plookup_unchanged hW hp hp']
      | none =>
        cases hpfind : s.pages.find? (fun x => x.figmaId == id) with
        | some page =>
          by_cases hdone : (page.status == PageStatus.done) = true
          · have hW : (resultState s (migrationStart (some s) (some figma) id now)).pages
                = s.pages := by
              simp only [migrationStart, hfind, hpfind, hdone, if_true, resultState]
            left
            rw [plookup_unchanged hW hp hp']
          · by_cases hready : (!page.componentsReady) = true
            · have hW : (resultState s (migrationStart (some s) (some figma) id now)).pages
                  = s.pages := by
                simp only [migrationStart, hfind, hpfind, hdone, hready, if_true,
                  if_false, Bool.false_eq_true, resultState]
              left
              rw [plookup_unchanged hW hp hp']
            · have hW : (resultState s (migrationStart (some s) (some figma) id now)).pages
                  = s.pages.map (startPageUpdate id) := by
                simp only [migrationStart, hfind, hpfind, hdone, hready, if_false,
                  Bool.false_eq_true, resultState, writeMigrationState]
              have hpp := plookup_rel hW (startPageUpdate_figmaId id) hp hp'
              rw [hpp, startPageUpdate_status]
              by_cases hpid : (p.figmaId == id) = true
              · right
                have hkey := plookup_key hp
                have hpidEq : pid = id := by
                  rw [← hkey]
                  exact (beq_iff_eq.mp hpid).symm ▸ rfl
                have hpeq : p = page := by
                  have : plookup s id = some p := by
                    rw [← hpidEq]
                    exact hp
                  unfold plookup at this
                  rw [hpfind] at this
                  exact (Option.some.inj this).symm
                refine ⟨hpidEq, ?_, by rw [if_pos hpid]⟩
                rw [hpeq]
                intro hcontra
                rw [hcontra] at hdone
                simp at hdone
              · left
                rw [if_neg hpid]
        | none =>
          have hW : (resultState s (migrationStart (some s) (some figma) id now)).pages
              = s.pages := by
            simp only [migrationStart, hfind, hpfind, resultState]
          left
          rw [plookup_unchanged hW hp hp']
  -- complete, components
  · intro cid c c' hc hc'
    cases hfind : s.components.find? (fun x => x.figmaId == id) with
    | some comp =>
      have hW : (resultState s (migrationComplete (some s) id path now)).components
          = (s.components.map (completeComponentUpdate id path now)).map
            (recomputeComponentReadiness (doneOrSkippedIds
              (s.components.map (completeComponentUpdate id path now)))) := by
        simp only [migrationComplete, hfind, resultState, writeMigrationState,
          updateDependencyReadiness]
      have hcc := clookup_rel2 hW (completeComponentUpdate_figmaId id path now)
        (recomputeComponentReadiness_figmaId _) hc hc'
      rw [hcc, recomputeComponentReadiness_status, completeComponentUpdate_status]
      by_cases hcid : (c.figmaId == id) = true
      · right
        have hkey := clookup_key hc
        exact ⟨by rw [← hkey]; exact beq_iff_eq.mp hcid, by rw [if_pos hcid]⟩
      · left
        rw [if_neg hcid]
    | none =>
      cases hpfind : s.pages.find? (fun x => x.figmaId == id) with
      | some page =>
        have hW : (resultState s (migrationComplete (some s) id path now)).components
            = s.components := by
          simp only [migrationComplete, hfind, hpfind, resultState, writeMigrationState]
        left
        rw [clookup_unchanged hW hc hc']
      | none =>
        have hW : (resultState s (migrationComplete (some s) id path now)).components
            = s.components := by
          simp only [migrationComplete, hfind, hpfind, resultState]
        left
        rw [clookup_unchanged hW hc hc']
  -- complete, pages
  · intro pid p p' hp hp'
    cases hfind : s.components.find? (fun x => x.figmaId == id) with
    | some comp =>
      have hW : (resultState s (migrationComplete (some s) id path now)).pages
          = s.pages.map (recomputePageReadiness (doneOrSkippedIds
              (s.components.map (completeComponentUpdate id path now)))) := by
        simp only [migrationComplete, hfind, resultState, writeMigrationState,
          updateDependencyReadiness]
      have hpp := plookup_rel hW (recomputePageReadiness_figmaId _) hp hp'
      rw [hpp, recomputePageReadiness_status]
      by_cases hb : (p.status == PageStatus.blocked &&
          p.componentsUsed.all (fun compId => (doneOrSkippedIds
            (s.components.map (completeComponentUpdate id path now))).contains compId)) = true
      · right
        right
        rw [if_pos hb]
        simp only [Bool.and_eq_true, beq_iff_eq] at hb
        exact ⟨hb.1, rfl⟩
      · left
        rw [if_neg hb]
    | none =>
      cases hpfind : s.pages.find? (fun x => x.figmaId == id) with
      | some page =>
        have hW : (resultState s (migrationComplete (some s) id path now)).pages
            = s.pages.map (completePageUpdate id path now) := by
          simp only [migrationComplete, hfind, hpfind, resultState, writeMigrationState]
        have hpp := plookup_rel hW (completePageUpdate_figmaId id path now) hp hp'
        rw [hpp, completePageUpdate_status]
        by_cases hpid : (p.figmaId == id) = true
        · right
          left
          have hkey := plookup_key hp
          exact ⟨by rw [← hkey]; exact beq_iff_eq.mp hpid, by rw [if_pos hpid]⟩
        · left
          rw [if_neg hpid]
      | none =>
        have hW : (resultState s (migrationComplete (some s) id path now)).pages
            = s.pages := by
          simp only [migrationComplete, hfind, hpfind, resultState]
        left
        rw [plookup_unchanged hW hp hp']
  -- skip, components
  · intro cid c c' hc hc'
    cases hfind : s.components.find? (fun x => x.figmaId == id) with
    | some comp =>
      have hW : (resultState s (migrationSkip (some s) id reason now)).components
          = (s.components.map (skipComponentUpdate id reason now)).map
            (recomputeComponentReadiness (doneOrSkippedIds
              (s.components.map (skipComponentUpdate id reason now)))) := by
        simp only [migrationSkip, hfind, resultState, writeMigrationState,
          updateDependencyReadiness]
      have hcc := clookup_rel2 hW (skipComponentUpdate_figmaId id reason now)
        (recomputeComponentReadiness_figmaId _) hc hc'
      rw [hcc, recomputeComponentReadiness_status, skipComponentUpdate_status]
      by_cases hcid : (c.figmaId == id) = true
      · right
        have hkey := clookup_key hc
        exact ⟨by rw [← hkey]; exact beq_iff_eq.mp hcid, by rw [if_pos hcid]⟩
      · left
        rw [if_neg hcid]
    | none =>
      cases hpfind : s.pages.find? (fun x => x.figmaId == id) with
      | some page =>
        have hW : (resultState s (migrationSkip (some s) id reason now)).components
            = s.components := by
          simp only [migrationSkip, hfind, hpfind, resultState]
        left
        rw [clookup_unchanged hW hc hc']
      | none =>
        have hW : (resultState s (migrationSkip (some s) id reason now)).components
            = s.components := by
          simp only [migrationSkip, hfind, hpfind, resultState]
        left
        rw [clookup_unchanged hW hc hc']
  -- skip, pages
  · intro pid p p' hp hp'
    cases hfind : s.components.find? (fun x => x.figmaId == id) with
    | some comp =>
      have hW : (resultState s (migrationSkip (some s) id reason now)).pages
          = s.pages.map (recomputePageReadiness (doneOrSkippedIds
              (s.components.map (skipComponentUpdate id reason now)))) := by
        simp only [migrationSkip, hfind, resultState, writeMigrationState,
          updateDependencyReadiness]
      have hpp := plookup_rel hW (recomputePageReadiness_figmaId _) hp hp'
      rw [hpp, recomputePageReadiness_status]
      by_cases hb : (p.status == PageStatus.blocked &&
          p.componentsUsed.all (fun compId => (doneOrSkippedIds
            (s.components.map (skipComponentUpdate id reason now))).contains compId)) = true
      · right
        rw [if_pos hb]
        simp only [Bool.and_eq_true, beq_iff_eq] at hb
        exact ⟨hb.1, rfl⟩
      · left
        rw [if_neg hb]
    | none =>
      cases hpfind : s.pages.find? (fun x => x.figmaId == id) with
      | some page =>
        have hW : (resultState s (migrationSkip (some s) id reason now)).pages
            = s.pages := by
          simp only [migrationSkip, hfind, hpfind, resultState]
        left
        rw [plookup_unchanged hW hp hp']
      | none =>
        have hW : (resultState s (migrationSkip (some s) id reason now)).pages
            = s.pages := by
          simp only [migrationSkip, hfind, hpfind, resultState]
        left
        rw [plookup_unchanged hW hp hp']

/-- Membership in the `wasNotReady` snapshot taken by `complete`/`skip`,
under unique keys: a member component's id is in the snapshot iff the
component itself was pending and not ready. -/
theorem mem_wasNotReady {s : MigrationState} (hWF : componentKeysNodup s)
    {c : ComponentState} (hc : c ∈ s.components) :
    ((s.components.filter (fun x => x.status == ComponentStatus.pending &&
        !x.dependenciesReady)).map (fun x => x.figmaId)).contains c.figmaId = true ↔
      (c.status = .pending ∧ c.dependenciesReady = false) := by
  simp only [List.contains, List.elem_iff, List.mem_map, List.mem_filter,
    Bool.and_eq_true, Bool.not_eq_true', beq_iff_eq]
  constructor
  · rintro ⟨c0, ⟨hc0, hst, hrd⟩, hid⟩
    have heq := eq_of_key_eq hWF hc0 hc hid
    exact ⟨heq ▸ hst, heq ▸ hrd⟩
  · rintro ⟨hst, hrd⟩
    exact ⟨c, ⟨hc, hst, hrd⟩, rfl⟩

/-- Characterization of the `newReady` list computed by the component branch
of `complete`/`skip`: its members are the names of exactly those components
that were pending-and-not-ready before and are pending-and-ready after. -/
theorem newReady_membership (s : MigrationState) (hWF : componentKeysNodup s)
    (u : ComponentState → ComponentState) (hid : ∀ c, (u c).figmaId = c.figmaId)
    (W : MigrationState)
    (hW : W.components = (s.components.map u).map
      (recomputeComponentReadiness (doneOrSkippedIds (s.components.map u))))
    (n : String) :
    n ∈ ((W.components.filter (fun c => c.status == ComponentStatus.pending &&
        c.dependenciesReady &&
        ((s.components.filter (fun x => x.status == ComponentStatus.pending &&
          !x.dependenciesReady)).map (fun x => x.figmaId)).contains c.figmaId)).map
        (fun c => c.name)) ↔
      ∃ cid c c', clookup s cid = some c ∧ clookup W cid = some c' ∧
        c'.name = n ∧ c.status = .pending ∧ c.dependenciesReady = false ∧
        c'.status = .pending ∧ c'.dependenciesReady = true := by
  have hlookup : ∀ cid, clookup W cid =
      ((clookup s cid).map u).map
        (recomputeComponentReadiness (doneOrSkippedIds (s.components.map u))) := by
    intro cid
    unfold clookup
    rw [hW, find?_map_key (fun x : ComponentState => x.figmaId) _ _
        (recomputeComponentReadiness_figmaId _),
      find?_map_key (fun x : ComponentState => x.figmaId) _ _ hid]
  constructor
  · intro hmem
    rw [List.mem_map] at hmem
    obtain ⟨a, hafilter, haname⟩ := hmem
    rw [List.mem_filter] at hafilter
    obtain ⟨haW, hacond⟩ := hafilter
    rw [hW] at haW
    rw [List.mem_map] at haW
    obtain ⟨b, hb, rfl⟩ := haW
    rw [List.mem_map] at hb
    obtain ⟨c, hcmem, rfl⟩ := hb
    simp only [Bool.and_eq_true, beq_iff_eq] at hacond
    obtain ⟨⟨hst', hrd'⟩, hcontains⟩ := hacond
    have hkeyid : (recomputeComponentReadiness
        (doneOrSkippedIds (s.components.map u)) (u c)).figmaId = c.figmaId := by
      rw [recomputeComponentReadiness_figmaId, hid]
    rw [hkeyid] at hcontains
    have hpre := (mem_wasNotReady hWF hcmem).mp hcontains
    have hcs : clookup s c.figmaId = some c := (find?_key_eq_some_iff hWF).mpr ⟨hcmem, rfl⟩
    refine ⟨c.figmaId, c, _, hcs, ?_, haname, hpre.1, hpre.2, hst', hrd'⟩
    rw [hlookup c.figmaId, hcs]
    rfl
  · rintro ⟨cid, c, c', hc, hc', hname, hst, hrd, hst', hrd'⟩
    rw [hlookup cid, hc] at hc'
    have hc'eq : c' = recomputeComponentReadiness
        (doneOrSkippedIds (s.components.map u)) (u c) := (Option.some.inj hc').symm
    have hcmem : c ∈ s.components := ((find?_key_eq_some_iff hWF).mp hc).1
    rw [List.mem_map]
    refine ⟨c', ?_, hname⟩
    rw [List.mem_filter]
    constructor
    · rw [hW, hc'eq]
      exact List.mem_map.mpr ⟨u c, List.mem_map.mpr ⟨c, hcmem, rfl⟩, rfl⟩
    · simp only [Bool.and_eq_true, beq_iff_eq]
      refine ⟨⟨hst', hrd'⟩, ?_⟩
      have hkeyid : c'.figmaId = c.figmaId := by
        rw [hc'eq, recomputeComponentReadiness_figmaId, hid]
      rw [hkeyid]
      exact (mem_wasNotReady hWF hcmem).mpr ⟨hst, hrd⟩

/-- **C2 (amended).** On a state with unique component keys, `complete` or
`skip` invoked on a component id returns in `newReady` exactly the names of
the components that were **pending** with `dependenciesReady = false` before
the call and are still pending with `dependenciesReady = true` in the
written state.  (The unamended claim — every component whose flag flips —
fails for non-pending components; see the counterexample.) -/
theorem complete_skip_newReady_pending_flip (s : MigrationState)
    (hWF : componentKeysNodup s) (id path reason now : String)
    (comp : ComponentState) (hfound : clookup s id = some comp) :
    (∀ w pay, migrationComplete (some s) id path now = .success w pay →
      ∀ n, n ∈ pay.newReady ↔
        ∃ cid c c', clookup s cid = some c ∧ clookup w cid = some c' ∧
          c'.name = n ∧ c.status = .pending ∧ c.dependenciesReady = false ∧
          c'.status = .pending ∧ c'.dependenciesReady = true) ∧
    (∀ w pay, migrationSkip (some s) id reason now = .success w pay →
      ∀ n, n ∈ pay.newReady ↔
        ∃ cid c c', clookup s cid = some c ∧ clookup w cid = some c' ∧
          c'.name = n ∧ c.status = .pending ∧ c.dependenciesReady = false ∧
          c'.status = .pending ∧ c'.dependenciesReady = true) := by
  unfold clookup at hfound
  constructor
  · intro w pay hw n
    rw [show migrationComplete (some s) id path now = migrationComplete (some s) id path now from rfl,
      migrationComplete] at hw
    rw [hfound] at hw
    simp only [OpOutcome.success.injEq] at hw
    obtain ⟨hweq, hpayeq⟩ := hw
    rw [← hpayeq]
    rw [← hweq]
    exact newReady_membership s hWF (completeComponentUpdate id path now)
      (completeComponentUpdate_figmaId id path now) _ rfl n
  · intro w pay hw n
    rw [show migrationSkip (some s) id reason now = migrationSkip (some s) id reason now from rfl,
      migrationSkip] at hw
    rw [hfound] at hw
    simp only [OpOutcome.success.injEq] at hw
    obtain ⟨hweq, hpayeq⟩ := hw
    rw [← hpayeq]
    rw [← hweq]
    exact newReady_membership s hWF (skipComponentUpdate id reason now)
      (skipComponentUpdate_figmaId id reason now) _ rfl n

/-- **C2 counterexample.** Completing `C` in `sC2` flips the stored
`dependenciesReady` of the already-`done` component `A` from `false` to
`true`, yet the operation reports `newReady = []` — the claim "the returned
list contains exactly the components whose flag flipped false→true"
requires `A`'s name in the list, so it fails on this state. -/
theorem complete_newReady_claim_counterexample :
    (clookup sC2 "A").map (fun c => c.dependenciesReady) = some false ∧
    (clookup (resultState sC2 (migrationComplete (some sC2) "C" "x.tsx" "t1")) "A").map
      (fun c => c.dependenciesReady) = some true ∧
    ((migrationComplete (some sC2) "C" "x.tsx" "t1").payload?).map
      (fun pay => pay.newReady) = some [] := by
  refine ⟨by decide, by decide, by decide⟩

/-- Witness for C2 at a concrete state: applying the amended theorem to
`sC2w` with all hypotheses discharged. -/
theorem complete_skip_newReady_pending_flip_witness :
    "Aname" ∈ payC2w.newReady ↔
      ∃ cid c c', clookup sC2w cid = some c ∧ clookup wC2w cid = some c' ∧
        c'.name = "Aname" ∧ c.status = .pending ∧ c.dependenciesReady = false ∧
        c'.status = .pending ∧ c'.dependenciesReady = true :=
  (complete_skip_newReady_pending_flip sC2w (by decide) "B" "y.tsx" "r" "t2"
    compBready (by decide)).1 wC2w payC2w (by decide) "Aname"

/-- **C3 counterexample.** `complete` on the already-`skipped` component `S`
succeeds and rewrites its status to `done`: the code performs a
`skipped → done` transition, while the claim says no operation ever changes
the status of a `done`/`skipped` component. -/
theorem status_machine_claim_counterexample :
    clookup sSkip "S" = some compSkippedS ∧
    compSkippedS.status = ComponentStatus.skipped ∧
    (migrationComplete (some sSkip) "S" "out.tsx" "t1").isSuccess = true ∧
    (clookup (resultState sSkip (migrationComplete (some sSkip) "S" "out.tsx" "t1")) "S").map
      (fun c => c.status) = some ComponentStatus.done := by
  refine ⟨by decide, by decide, by decide, by decide⟩

/-- Witness for C3: the complete/components clause applied at a concrete
state, all hypotheses discharged. -/
theorem status_transitions_characterization_witness :
    compDoneS.status = compSkippedS.status ∨
      ("S" = "S" ∧ compDoneS.status = ComponentStatus.done) :=
  (status_transitions_characterization sSkip none "S" "out.tsx" "r" "t1").2.2.1
    "S" compSkippedS compDoneS (by decide) (by decide)

/-- **C4 (amended).** When a state file already exists, `migrationInit`
performs no write: it fails with `AlreadyInitialized` whenever the source
snapshot is available, and with `NoSourceData` when it is not (the code
checks the snapshot before looking for the existing file).  In both cases
the operation returns before `writeMigrationState`, so the existing file
stays byte-for-byte unmodified. -/
theorem init_existing_state_no_write (data : Option ExtractedData)
    (st : MigrationState) (fileUrl : Option String) (now : String) :
    (data = none → migrationInit data (some st) fileUrl now = .error .noSourceData) ∧
    (∀ d, data = some d → migrationInit data (some st) fileUrl now
      = .error (.alreadyInitialized st.figmaFileKey)) ∧
    (∀ w pay, migrationInit data (some st) fileUrl now ≠ .success w pay) := by
  refine ⟨?_, ?_, ?_⟩
  · rintro rfl
    rfl
  · rintro d rfl
    rfl
  · intro w pay hcontra
    cases data with
    | none => simp [migrationInit] at hcontra
    | some d => simp [migrationInit] at hcontra

/-- **C4 counterexample.** With an existing state file but no cached source
snapshot, `migrationInit` fails with `NoSourceData`, not
`AlreadyInitialized` as the claim states. -/
theorem init_existing_claim_counterexample :
    migrationInit none (some sC2) none "t1" = .error .noSourceData ∧
    MigErr.noSourceData ≠ MigErr.alreadyInitialized sC2.figmaFileKey := by
  exact ⟨rfl, by decide⟩

/-- Witness for C4 at concrete inputs, both error shapes. -/
theorem init_existing_state_no_write_witness :
    migrationInit none (some sC2) none "t1" = .error .noSourceData ∧
    migrationInit (some dataInit) (some sC2) none "t1"
      = .error (.alreadyInitialized sC2.figmaFileKey) :=
  ⟨(init_existing_state_no_write none sC2 none "t1").1 rfl,
   (init_existing_state_no_write (some dataInit) sC2 none "t1").2.1 dataInit rfl⟩

/-- **C10.** Every successful `migrationInit` persists the literal
`"unknown"` as `figmaFileKey`; only `figmaFileUrl` records the caller's
`fileUrl` argument, empty when absent (`fileUrl || ""`). -/
theorem init_fileKey_unknown (data : Option ExtractedData)
    (existing : Option MigrationState) (fileUrl : Option String) (now : String) :
    ∀ w pay, migrationInit data existing fileUrl now = .success w pay →
      w.figmaFileKey = "unknown" ∧ w.figmaFileUrl = fileUrl.getD "" := by
  intro w pay h
  cases data with
  | none => simp [migrationInit] at h
  | some d =>
    cases existing with
    | some st => simp [migrationInit] at h
    | none =>
      simp only [migrationInit, OpOutcome.success.injEq] at h
      obtain ⟨hw, _⟩ := h
      rw [← hw]
      exact ⟨rfl, rfl⟩

/-- Witness for C10 at a concrete snapshot and url. -/
theorem init_fileKey_unknown_witness :
    wInit.figmaFileKey = "unknown" ∧ wInit.figmaFileUrl = (some "u1").getD "" :=
  init_fileKey_unknown (some dataInit) none (some "u1") "t1" wInit payInit (by decide)

/-- **C5 (amended).** `start` on a component that is not terminal and whose
`dependenciesReady` is false fails with `DependenciesNotReady`, the error
payload listing the component's **entire** `dependencies` list (resolved
ids included, contrary to the claim), and no write occurs. -/
theorem start_dependencies_not_ready_error (s : MigrationState)
    (data : ExtractedData) (id now : String) (comp : ComponentState)
    (hfound : clookup s id = some comp)
    (hterm : comp.status ≠ .done ∧ comp.status ≠ .skipped)
    (hready : comp.dependenciesReady = false) :
    migrationStart (some s) (some data) id now
      = .error (.dependenciesNotReady comp.name comp.dependencies) ∧
    resultState s (migrationStart (some s) (some data) id now) = s := by
  unfold clookup at hfound
  have h1 : (comp.status == ComponentStatus.done ||
      comp.status == ComponentStatus.skipped) = false := by
    cases hs : comp.status <;> simp_all
  have h2 : migrationStart (some s) (some data) id now
      = .error (.dependenciesNotReady comp.name comp.dependencies) := by
    simp [migrationStart, hfound, h1, hready]
  refine ⟨h2, ?_⟩
  rw [h2]
  rfl

/-- **C5 counterexample.** Starting `X` (deps `A` done, `B` pending) lists
both `A` and `B` in the error payload, while the claim requires exactly the
unresolved ids, i.e. `["B"]`. -/
theorem start_deps_payload_counterexample :
    migrationStart (some sC5) (some dataInit) "X" "t1"
      = .error (.dependenciesNotReady "Xcomp" ["A", "B"]) ∧
    (clookup sC5 "A").map (fun c => c.status) = some ComponentStatus.done ∧
    (compXdeps.dependencies.filter
      (fun dep => !(doneOrSkippedIds sC5.components).contains dep)) = ["B"] ∧
    (["A", "B"] : List String) ≠ ["B"] := by
  refine ⟨rfl, by decide, by decide, by decide⟩

/-- Witness for C5 at the concrete state `sC5`. -/
theorem start_dependencies_not_ready_error_witness :
    migrationStart (some sC5) (some dataInit) "X" "t1"
      = .error (.dependenciesNotReady compXdeps.name compXdeps.dependencies) ∧
    resultState sC5 (migrationStart (some sC5) (some dataInit) "X" "t1") = sC5 :=
  start_dependencies_not_ready_error sC5 dataInit "X" "t1" compXdeps
    (by decide) ⟨by decide, by decide⟩ (by decide)

/-- Membership through the stable insertion. -/
theorem mem_insertByInstanceCountDesc {x : ComponentState}
    {l : List ComponentState} {y : ComponentState} :
    y ∈ insertByInstanceCountDesc x l ↔ y = x ∨ y ∈ l := by
  induction l with
  | nil => simp [insertByInstanceCountDesc]
  | cons z zs ih =>
    unfold insertByInstanceCountDesc
    by_cases hc : z.instanceCount ≤ x.instanceCount
    · rw [if_pos hc]
      simp [List.mem_cons]
    · rw [if_neg hc]
      simp only [List.mem_cons, ih]
      tauto

/-- Insertion preserves descending sortedness. -/
theorem sorted_insertByInstanceCountDesc (x : ComponentState)
    (l : List ComponentState)
    (h : l.Pairwise (fun a b => b.instanceCount ≤ a.instanceCount)) :
    (insertByInstanceCountDesc x l).Pairwise
      (fun a b => b.instanceCount ≤ a.instanceCount) := by
  induction l with
  | nil => simp [insertByInstanceCountDesc]
  | cons y ys ih =>
    rw [List.pairwise_cons] at h
    unfold insertByInstanceCountDesc
    by_cases hc : y.instanceCount ≤ x.instanceCount
    · rw [if_pos hc]
      rw [List.pairwise_cons]
      refine ⟨?_, List.pairwise_cons.mpr h⟩
      intro z hz
      rcases List.mem_cons.mp hz with rfl | hz'
      · exact hc
      · exact le_trans (h.1 z hz') hc
    · rw [if_neg hc]
      rw [List.pairwise_cons]
      refine ⟨?_, ih h.2⟩
      intro z hz
      rcases mem_insertByInstanceCountDesc.mp hz with rfl | hz'
      · exact Nat.le_of_lt (Nat.lt_of_not_le hc)
      · exact h.1 z hz'

/-- The sort is descending in `instanceCount`. -/
theorem sorted_sortByInstanceCountDesc (l : List ComponentState) :
    (sortByInstanceCountDesc l).Pairwise
      (fun a b => b.instanceCount ≤ a.instanceCount) := by
  induction l with
  | nil => simp [sortByInstanceCountDesc]
  | cons x xs ih => exact sorted_insertByInstanceCountDesc x _ ih

/-- Per-key stability of the insertion: the elements with a fixed
`instanceCount` keep their relative order, the inserted element (which is
original-first) going to the front of its tie class. -/
theorem filter_key_insertByInstanceCountDesc (x : ComponentState)
    (l : List ComponentState) (k : Nat) :
    (insertByInstanceCountDesc x l).filter (fun c => c.instanceCount == k)
      = (if x.instanceCount == k
         then x :: l.filter (fun c => c.instanceCount == k)
         else l.filter (fun c => c.instanceCount == k)) := by
  induction l with
  | nil =>
    unfold insertByInstanceCountDesc
    by_cases hx : (x.instanceCount == k) = true <;> simp [hx]
  | cons y ys ih =>
    unfold insertByInstanceCountDesc
    by_cases hc : y.instanceCount ≤ x.instanceCount
    · rw [if_pos hc]
      by_cases hx : (x.instanceCount == k) = true <;> simp [List.filter_cons, hx]
    · rw [if_neg hc]
      by_cases hy : (y.instanceCount == k) = true
      · have hx : (x.instanceCount == k) = false := by
          have hyk : y.instanceCount = k := by simpa using hy
          have hlt : x.instanceCount < y.instanceCount := Nat.lt_of_not_le hc
          simp only [beq_eq_false_iff_ne, ne_eq]
          omega
        simp [List.filter_cons, hy, ih, hx]
      · simp [List.filter_cons, hy, ih]

/-- The sort preserves each `instanceCount` class in original order. -/
theorem filter_key_sortByInstanceCountDesc (l : List ComponentState) (k : Nat) :
    (sortByInstanceCountDesc l).filter (fun c => c.instanceCount == k)
      = l.filter (fun c => c.instanceCount == k) := by
  induction l with
  | nil => rfl
  | cons x xs ih =>
    show (insertByInstanceCountDesc x (sortByInstanceCountDesc xs)).filter
        (fun c => c.instanceCount == k) = _
    rw [filter_key_insertByInstanceCountDesc, ih]
    by_cases hx : (x.instanceCount == k) = true <;> simp [List.filter_cons, hx]

/-- **C6.** `migrationNext` on a loaded state returns and caps, in order:
the pending-and-ready components (when the filter admits components),
sorted by descending `instanceCount` with ties in original insertion order,
followed by the pending-and-ready pages exactly when the stored phase is
`pages` (filter `any`) or the filter is `page`; the result is the first
`limit` items, and `remaining` counts the eligible items beyond the cap. -/
theorem next_ready_listing_spec (s : MigrationState) (limit : Nat)
    (ty : NextTypeFilter) :
    ∀ r, migrationNext (some s) limit ty = .ok r →
      ∃ (comps : List ComponentState) (pagePart : List NextItem),
        r.items = (comps.map componentNextItem ++ pagePart).take limit ∧
        r.remaining = (comps.map componentNextItem ++ pagePart).length - limit ∧
        comps.Pairwise (fun a b => b.instanceCount ≤ a.instanceCount) ∧
        (∀ k, comps.filter (fun c => c.instanceCount == k)
          = (if ty == .any || ty == .component
             then s.components.filter (fun c => c.status == .pending && c.dependenciesReady)
             else []).filter (fun c => c.instanceCount == k)) ∧
        pagePart = (if (ty == .any && s.stats.phase == .pages) || ty == .page
          then (s.pages.filter (fun p => p.status == .pending && p.componentsReady)).map
            pageNextItem
          else []) := by
  intro r hr
  simp only [migrationNext, Except.ok.injEq] at hr
  refine ⟨(if ty == .any || ty == .component
      then sortByInstanceCountDesc
        (s.components.filter (fun c => c.status == .pending && c.dependenciesReady))
      else []), _, ?_, ?_, ?_, ?_, rfl⟩
  · rw [← hr]
    by_cases hty : (ty == .any || ty == .component) = true <;>
      simp [hty, componentNextItem]
  · rw [← hr]
    by_cases hty : (ty == .any || ty == .component) = true <;>
      simp [hty, componentNextItem]
  · by_cases hty : (ty == .any || ty == .component) = true
    · rw [if_pos hty]
      exact sorted_sortByInstanceCountDesc _
    · rw [if_neg hty]
      simp
  · intro k
    by_cases hty : (ty == .any || ty == .component) = true
    · rw [if_pos hty, if_pos hty]
      exact filter_key_sortByInstanceCountDesc _ k
    · rw [if_neg hty, if_neg hty]

/-- Witness for C6 at a concrete state, limit and filter. -/
theorem next_ready_listing_spec_witness :
    ∃ (comps : List ComponentState) (pagePart : List NextItem),
      rC6.items = (comps.map componentNextItem ++ pagePart).take 5 ∧
      rC6.remaining = (comps.map componentNextItem ++ pagePart).length - 5 ∧
      comps.Pairwise (fun a b => b.instanceCount ≤ a.instanceCount) ∧
      (∀ k, comps.filter (fun c => c.instanceCount == k)
        = (if NextTypeFilter.any == NextTypeFilter.any ||
              NextTypeFilter.any == NextTypeFilter.component
           then sC2w.components.filter
             (fun c => c.status == .pending && c.dependenciesReady)
           else []).filter (fun c => c.instanceCount == k)) ∧
      pagePart = (if (NextTypeFilter.any == NextTypeFilter.any &&
            sC2w.stats.phase == MigrationPhase.pages) ||
            NextTypeFilter.any == NextTypeFilter.page
        then (sC2w.pages.filter (fun p => p.status == .pending && p.componentsReady)).map
          pageNextItem
        else []) :=
  next_ready_listing_spec sC2w 5 .any rC6 (by rfl)

/-- Witness for C1: the invariant instantiated at a concrete propagated
state and component, membership discharged by evaluation. -/
theorem propagator_readiness_invariant_witness :
    updBfix ∈ (updateDependencyReadiness sInv).components ∧
    (updBfix.dependenciesReady = true ↔
      (updBfix.dependencies = [] ∨
        ∀ dep ∈ updBfix.dependencies,
          ∃ c2 ∈ (updateDependencyReadiness sInv).components,
            c2.figmaId = dep ∧ (c2.status = .done ∨ c2.status = .skipped))) := by
  have hmem : updBfix ∈ (updateDependencyReadiness sInv).components := by decide
  exact ⟨hmem, (propagator_readiness_invariant sInv).1 updBfix hmem⟩

end Migration
